import Mathlib

/-!
Shallow embedding of the CCC compiler front-end (lexer, expression parser,
semantic analyzer, code generator) translated from the C++ sources
`src/lexer.cpp`, `src/parser.cpp`, `src/semantic.cpp`, `src/codegen.cpp`,
`include/token.h`, `include/error.h`, `include/semantic.h`, `include/codegen.h`,
together with theorems checking the specification's claims against it.

Modelling conventions:
* `std::string` is `String` / `List Char`; indices into the source are
  replaced by consuming a `List Char` and collecting the consumed span
  (the C++ lexer's `substr(start, current - start)` lexeme).
* `int` line/column counters are `Int` (they are ordinary ints in C++).
* `uint16_t` virtual-variable ids and symbol indices are `Nat`; none of the
  verified claims approaches the 2^16 wrap, so no masking is applied.
* `std::unordered_map` is an association list with insert-or-assign update;
  only lookup/erase semantics are relied upon, never iteration order.
* A moved-from `std::unique_ptr<ExpressionNode>` child is the explicit
  `ExpressionNode.null` value (C++ guarantees a moved-from `unique_ptr`
  is null); the parser's compound-assignment desugaring moves the same
  pointer twice, which the embedding reproduces.
* Floating-point immediates never influence any verified claim; a `FP32`
  immediate operand carries the source lexeme instead of an IEEE value.
-/

namespace CCC

/-- Error severity levels, from `include/error.h` (`enum class ErrorLevel`). -/
inductive ErrorLevel where
  | INFO
  | WARNING
  | ERROR
deriving DecidableEq

/-- One recorded diagnostic, from `include/error.h` (`struct ErrorEntry`). -/
structure ErrEntry where
  level : ErrorLevel
  message : String
  filename : String
  line : Int
  column : Int
deriving DecidableEq

/-- `ErrorHandler::error` with the default (empty) filename argument: the
driver never calls `setCurrentFilename`, so the stored filename is `""`. -/
def errError (errs : List ErrEntry) (line col : Int) (msg : String) : List ErrEntry :=
  errs ++ [⟨ErrorLevel.ERROR, msg, "", line, col⟩]

/-- `ErrorHandler::warning` with the default (empty) filename argument. -/
def errWarning (errs : List ErrEntry) (line col : Int) (msg : String) : List ErrEntry :=
  errs ++ [⟨ErrorLevel.WARNING, msg, "", line, col⟩]

/-- `ErrorHandler::hasErrors`: the sticky flag is set exactly when some
entry of error severity was recorded. -/
def hasErrors (errs : List ErrEntry) : Bool :=
  errs.any (fun e => e.level = ErrorLevel.ERROR)

/-- Token kinds, from `include/token.h` (`enum class TokenType`). -/
inductive TokenType where
  | END_OF_FILE
  | UNKNOWN
  | IDENTIFIER
  | INTEGER_LITERAL
  | FLOAT_LITERAL
  | STRING_LITERAL
  | CHAR_LITERAL
  | KW_AUTO
  | KW_BREAK
  | KW_CASE
  | KW_CHAR
  | KW_CONST
  | KW_CONTINUE
  | KW_DEFAULT
  | KW_DO
  | KW_DOUBLE
  | KW_ELSE
  | KW_ENUM
  | KW_EXTERN
  | KW_FLOAT
  | KW_FOR
  | KW_GOTO
  | KW_IF
  | KW_INT
  | KW_LONG
  | KW_REGISTER
  | KW_RETURN
  | KW_SHORT
  | KW_SIGNED
  | KW_SIZEOF
  | KW_STATIC
  | KW_STRUCT
  | KW_SWITCH
  | KW_TYPEDEF
  | KW_UNION
  | KW_UNSIGNED
  | KW_VOID
  | KW_VOLATILE
  | KW_WHILE
  | OP_PLUS
  | OP_MINUS
  | OP_STAR
  | OP_SLASH
  | OP_PERCENT
  | OP_AMPERSAND
  | OP_PIPE
  | OP_CARET
  | OP_TILDE
  | OP_EXCLAMATION
  | OP_EQUALS
  | OP_LESS
  | OP_GREATER
  | OP_DOT
  | OP_ARROW
  | OP_PLUS_PLUS
  | OP_MINUS_MINUS
  | OP_PLUS_EQUALS
  | OP_MINUS_EQUALS
  | OP_STAR_EQUALS
  | OP_SLASH_EQUALS
  | OP_PERCENT_EQUALS
  | OP_AND_EQUALS
  | OP_OR_EQUALS
  | OP_XOR_EQUALS
  | OP_SHL_EQUALS
  | OP_SHR_EQUALS
  | OP_EQUALS_EQUALS
  | OP_NOT_EQUALS
  | OP_LESS_EQUALS
  | OP_GREATER_EQUALS
  | OP_SHL
  | OP_SHR
  | OP_LOGICAL_AND
  | OP_LOGICAL_OR
  | OP_QUESTION
  | SEMICOLON
  | COLON
  | COMMA
  | LEFT_PAREN
  | RIGHT_PAREN
  | LEFT_BRACE
  | RIGHT_BRACE
  | LEFT_BRACKET
  | RIGHT_BRACKET
  | HASH
  | ELLIPSIS
deriving DecidableEq

/-- A token, from `include/token.h` (`struct Token`). -/
structure Token where
  type : TokenType
  lexeme : String
  filename : String
  line : Int
  column : Int
deriving DecidableEq

/-- The keyword table of `src/token.cpp` (`const std::unordered_map Keywords`). -/
def keywordList : List (String × TokenType) :=
  [("auto", TokenType.KW_AUTO),
   ("break", TokenType.KW_BREAK),
   ("case", TokenType.KW_CASE),
   ("char", TokenType.KW_CHAR),
   ("const", TokenType.KW_CONST),
   ("continue", TokenType.KW_CONTINUE),
   ("default", TokenType.KW_DEFAULT),
   ("do", TokenType.KW_DO),
   ("double", TokenType.KW_DOUBLE),
   ("else", TokenType.KW_ELSE),
   ("enum", TokenType.KW_ENUM),
   ("extern", TokenType.KW_EXTERN),
   ("float", TokenType.KW_FLOAT),
   ("for", TokenType.KW_FOR),
   ("goto", TokenType.KW_GOTO),
   ("if", TokenType.KW_IF),
   ("int", TokenType.KW_INT),
   ("long", TokenType.KW_LONG),
   ("register", TokenType.KW_REGISTER),
   ("return", TokenType.KW_RETURN),
   ("short", TokenType.KW_SHORT),
   ("signed", TokenType.KW_SIGNED),
   ("sizeof", TokenType.KW_SIZEOF),
   ("static", TokenType.KW_STATIC),
   ("struct", TokenType.KW_STRUCT),
   ("switch", TokenType.KW_SWITCH),
   ("typedef", TokenType.KW_TYPEDEF),
   ("union", TokenType.KW_UNION),
   ("unsigned", TokenType.KW_UNSIGNED),
   ("void", TokenType.KW_VOID),
   ("volatile", TokenType.KW_VOLATILE),
   ("while", TokenType.KW_WHILE)]

/-- `Keywords.find(text)`: exact-match lookup in the keyword table. -/
def keywordLookup (s : String) : Option TokenType :=
  (keywordList.find? (fun p => p.1 = s)).map Prod.snd

/-! ## Lexer (`src/lexer.cpp`)

The C++ lexer walks byte offsets `start`/`current`; the embedding consumes a
`List Char` and returns the consumed span, so `makeToken`'s lexeme
`source.substr(start, current - start)` is the collected list of consumed
characters and its column `column - lexeme.length()` is computed from the
post-consumption column. -/

/-- Result of one scanning step: the token produced (if any), the remaining
input, the updated line/column counters, and the updated diagnostics. -/
structure ScanOut where
  tok? : Option Token
  rest : List Char
  line : Int
  col : Int
  errs : List ErrEntry

section Lexer

variable (fname : String)

/-- `Token` built as `Lexer::makeToken` does: its column is the current
column minus the lexeme length. -/
def makeToken (type : TokenType) (lexeme : List Char) (line colAfter : Int) : Token :=
  ⟨type, String.mk lexeme, fname, line, colAfter - (lexeme.length : Int)⟩


/-- The `//` line-comment loop of `Lexer::comment`: consume up to (not
including) the next newline. -/
def commentLine : List Char → Int → List Char × Int
  | [], col => ([], col)
  | c :: rest, col =>
      if c = '\n' then (c :: rest, col) else commentLine rest (col + 1)

/-- The `/* ... */` block-comment loop of `Lexer::comment`; the `Bool`
reports whether the closing sequence was found.  On a newline the loop sets
`column` to 1 and the subsequent `advance()` raises it to 2, as in C++. -/
def commentBlock : List Char → Int → Int → List Char × Int × Int × Bool
  | [], line, col => ([], line, col, false)
  | c :: rest, line, col =>
      if c = '*' ∧ rest.head? = some '/' then (rest.tail, line, col + 2, true)
      else if c = '\n' then commentBlock rest (line + 1) 2
      else commentBlock rest line (col + 1)

/-- `Lexer::skipWhitespace`: skip spaces, tabs, carriage returns, newlines,
and both comment forms; an unterminated block comment reports
"Unterminated block comment" at its opening position.  The fuel only bounds
the loop count: every iteration of the C++ loop consumes at least one
character, so the caller's `src.length + 1` is always sufficient. -/
def skipWhitespace : Nat → List Char → Int → Int → List ErrEntry →
    List Char × Int × Int × List ErrEntry
  | 0, src, line, col, errs => (src, line, col, errs)
  | fuel + 1, src, line, col, errs =>
      match src with
      | [] => ([], line, col, errs)
      | c :: rest =>
          if c = ' ' ∨ c = '\t' ∨ c = '\r' then skipWhitespace fuel rest line (col + 1) errs
          else if c = '\n' then skipWhitespace fuel rest (line + 1) 2 errs
          else if c = '/' ∧ rest.head? = some '/' then
            let r := commentLine rest.tail (col + 2)
            skipWhitespace fuel r.1 line r.2 errs
          else if c = '/' ∧ rest.head? = some '*' then
            let r := commentBlock rest.tail line (col + 2)
            let errs' := if r.2.2.2 then errs
              else errError errs line col "Unterminated block comment"
            skipWhitespace fuel r.1 r.2.1 r.2.2.1 errs'
          else (c :: rest, line, col, errs)

/-- `Lexer::identifier`, entered after stepping back to the identifier's
first character: consume `[A-Za-z0-9_]*` and classify via the keyword
table; returns the token, the rest, and the updated column. -/
def identifier (src : List Char) (line col : Int) : Token × List Char × Int :=
  let name := src.takeWhile (fun c => c.isAlphanum || c = '_')
  let rest := src.dropWhile (fun c => c.isAlphanum || c = '_')
  let colAfter := col + (name.length : Int)
  let ttype := match keywordLookup (String.mk name) with
    | some k => k
    | none => TokenType.IDENTIFIER
  (makeToken fname ttype name line colAfter, rest, colAfter)

/-- The suffix step of `Lexer::number`: `f`/`F` forces float; `l`/`L` takes
an optional `u`/`U`; `u`/`U` takes an optional `l`/`L`.  Returns the
consumed characters, the rest, and whether the suffix was `f`/`F`. -/
def numSuffix (src : List Char) : List Char × List Char × Bool :=
  match src with
  | [] => ([], [], false)
  | c :: rest =>
      if c = 'f' ∨ c = 'F' then ([c], rest, true)
      else if c = 'l' ∨ c = 'L' then
        match rest with
        | [] => ([c], [], false)
        | d :: rest2 =>
            if d = 'u' ∨ d = 'U' then ([c, d], rest2, false) else ([c], d :: rest2, false)
      else if c = 'u' ∨ c = 'U' then
        match rest with
        | [] => ([c], [], false)
        | d :: rest2 =>
            if d = 'l' ∨ d = 'L' then ([c, d], rest2, false) else ([c], d :: rest2, false)
      else ([], c :: rest, false)

/-- Outcome of the exponent step of `Lexer::number`. -/
inductive ExpScan where
  | noExp (rest : List Char)
  | ok (consumed : List Char) (rest : List Char)
  | err (consumedCount : Nat) (rest : List Char)

/-- The exponent step of `Lexer::number`: on `e`/`E`, consume an optional
sign; if no digit follows, the C++ code reports an error and returns
without producing a token (`ExpScan.err` carries the number of characters
consumed, which determines the error's column). -/
def numExp (src : List Char) : ExpScan :=
  match src with
  | [] => ExpScan.noExp []
  | c :: rest =>
      if c = 'e' ∨ c = 'E' then
        let (sgn, r2) := match rest with
          | [] => (([] : List Char), ([] : List Char))
          | d :: rest2 =>
              if d = '+' ∨ d = '-' then ([d], rest2) else (([] : List Char), d :: rest2)
        match r2 with
        | [] => ExpScan.err (1 + sgn.length) []
        | d :: r3 =>
            if d.isDigit then
              ExpScan.ok (c :: sgn ++ (d :: r3).takeWhile Char.isDigit)
                ((d :: r3).dropWhile Char.isDigit)
            else ExpScan.err (1 + sgn.length) (d :: r3)
      else ExpScan.noExp (c :: rest)

/-- The fractional-part step of `Lexer::number`: a dot is consumed only when
followed by a digit.  Returns consumed characters, rest, and whether the
fractional part was taken. -/
def numFrac (src : List Char) : List Char × List Char × Bool :=
  match src with
  | c :: d :: rest =>
      if c = '.' ∧ d.isDigit then
        ('.' :: (d :: rest).takeWhile Char.isDigit, (d :: rest).dropWhile Char.isDigit, true)
      else ([], c :: d :: rest, false)
  | other => ([], other, false)

/-- `Lexer::number`: integer part, optional fraction, optional exponent
(reporting "Invalid floating point number: exponent has no digits" and
returning without a token when the exponent lacks digits), optional
suffixes.  The token kind is `FLOAT_LITERAL` exactly when the C++
`isFloat` flag was set by the fraction, the exponent, or an f/F suffix. -/
def number (src : List Char) (line col : Int) (errs : List ErrEntry) : ScanOut :=
  let ds := src.takeWhile Char.isDigit
  let r1 := src.dropWhile Char.isDigit
  let (frac, r2, fracTaken) := numFrac r1
  let colPre : Int := col + (ds.length : Int) + (frac.length : Int)
  match numExp r2 with
  | ExpScan.err n r3 =>
      ⟨none, r3, line, colPre + (n : Int),
        errError errs line (colPre + (n : Int))
          "Invalid floating point number: exponent has no digits"⟩
  | ExpScan.noExp r3 =>
      let (sfx, r4, isF) := numSuffix r3
      let lexeme := ds ++ frac ++ sfx
      let colAfter := colPre + (sfx.length : Int)
      ⟨some (makeToken fname
          (if fracTaken || isF then TokenType.FLOAT_LITERAL else TokenType.INTEGER_LITERAL)
          lexeme line colAfter),
        r4, line, colAfter, errs⟩
  | ExpScan.ok ec r3 =>
      let (sfx, r4, _isF) := numSuffix r3
      let lexeme := ds ++ frac ++ ec ++ sfx
      let colAfter := colPre + (ec.length : Int) + (sfx.length : Int)
      ⟨some (makeToken fname TokenType.FLOAT_LITERAL lexeme line colAfter),
        r4, line, colAfter, errs⟩

/-- Status of the string-literal loop of `Lexer::string`. -/
inductive StrStatus where
  | closed
  | eofPlain
  | eofAfterBackslash
deriving DecidableEq

/-- The scanning loop of `Lexer::string`: consume characters through the
closing quote; a backslash consumes one extra character unconditionally; a
newline bumps the line counter (and the following `advance()` leaves the
column at 2).  Returns the consumed characters (quotes excluded), the rest
(after the closing quote when closed), updated line/column, and how the
loop ended. -/
def stringBody : List Char → Int → Int → List Char × List Char × Int × Int × StrStatus
  | [], line, col => ([], [], line, col, StrStatus.eofPlain)
  | c :: rest, line, col =>
      if c = '"' then ([], rest, line, col + 1, StrStatus.closed)
      else
        let line1 : Int := if c = '\n' then line + 1 else line
        let col1 : Int := if c = '\n' then 1 else col
        if c = '\\' then
          match rest with
          | [] => ([c], [], line1, col1 + 1, StrStatus.eofAfterBackslash)
          | d :: rest2 =>
              let (cs, r, l2, c2, st) := stringBody rest2 line1 (col1 + 2)
              (c :: d :: cs, r, l2, c2, st)
        else
          let (cs, r, l2, c2, st) := stringBody rest line1 (col1 + 1)
          (c :: cs, r, l2, c2, st)

/-- `Lexer::string`, entered after the opening quote was consumed (the
column already advanced past it): the recorded start position for errors
is the opening quote's location.  Running out of input directly after a
backslash reports both the escape error and the unterminated error, as
the C++ `break` falls through to the end-of-input check. -/
def stringLit (src : List Char) (line col : Int) (errs : List ErrEntry) : ScanOut :=
  let startLine := line
  let startCol := col - 1
  let (cs, rest, line2, col2, st) := stringBody src line col
  match st with
  | StrStatus.closed =>
      ⟨some (makeToken fname TokenType.STRING_LITERAL ('"' :: cs ++ ['"']) line2 col2),
        rest, line2, col2, errs⟩
  | StrStatus.eofPlain =>
      ⟨none, rest, line2, col2, errError errs startLine startCol "Unterminated string literal"⟩
  | StrStatus.eofAfterBackslash =>
      ⟨none, rest, line2, col2,
        errError
          (errError errs startLine startCol
            "Unterminated string literal: expected escape sequence")
          startLine startCol "Unterminated string literal"⟩

/-- The closing-quote check of `Lexer::character`, including the
skip-to-quote recovery for multi-character literals; `content` is the
consumed literal body, used to rebuild the lexeme from the opening quote
through the closing quote. -/
def charClose (content : List Char) (src : List Char) (line col : Int)
    (startLine startCol : Int) (errs : List ErrEntry) : ScanOut :=
  let recover := src.head? ≠ some '\''
  let errs1 := if recover then
      errError errs startLine startCol "Multi-character character literal or missing closing quote"
    else errs
  let skipped := if recover then src.takeWhile (fun c => c ≠ '\'') else []
  let src1 := if recover then src.dropWhile (fun c => c ≠ '\'') else src
  let col1 := col + (skipped.length : Int)
  match src1 with
  | _ :: rest2 =>
      ⟨some (makeToken fname TokenType.CHAR_LITERAL
          ('\'' :: content ++ skipped ++ ['\'']) line (col1 + 1)),
        rest2, line, col1 + 1, errs1⟩
  | [] =>
      ⟨none, [], line, col1, errError errs1 startLine startCol "Unterminated character literal"⟩

/-- `Lexer::character`, entered after the opening quote was consumed:
escape pair or a single non-quote character, then the closing-quote
check.  The line counter is never updated inside a character literal. -/
def character (src : List Char) (line col : Int) (errs : List ErrEntry) : ScanOut :=
  let startLine := line
  let startCol := col - 1
  match src with
  | [] => ⟨none, [], line, col, errError errs startLine startCol "Empty character literal"⟩
  | c :: rest =>
      if c = '\\' then
        match rest with
        | [] =>
            ⟨none, [], line, col + 1,
              errError errs startLine startCol
                "Unterminated character literal: expected escape sequence"⟩
        | d :: rest2 => charClose fname [c, d] rest2 line (col + 2) startLine startCol errs
      else if c = '\'' then
        ⟨none, rest, line, col + 1, errError errs startLine startCol "Empty character literal"⟩
      else charClose fname [c] rest line (col + 1) startLine startCol errs

/-- Helper for the single- and multi-character operator cases of
`Lexer::scanToken`: consume `cs`, advance the column, and produce the
token via `makeToken`. -/
def punctOut (t : TokenType) (cs rest : List Char) (line col : Int)
    (errs : List ErrEntry) : ScanOut :=
  ⟨some (makeToken fname t cs line (col + (cs.length : Int))),
    rest, line, col + (cs.length : Int), errs⟩

/-- The operator/punctuation switch of `Lexer::scanToken` (maximal-munch
lookahead per leading character), plus the string/character-literal entry
points and the unknown-character error. -/
def scanPunct (src : List Char) (line col : Int) (errs : List ErrEntry) : ScanOut :=
  match src with
  | '(' :: rest => punctOut fname TokenType.LEFT_PAREN ['('] rest line col errs
  | ')' :: rest => punctOut fname TokenType.RIGHT_PAREN [')'] rest line col errs
  | '{' :: rest => punctOut fname TokenType.LEFT_BRACE ['{'] rest line col errs
  | '}' :: rest => punctOut fname TokenType.RIGHT_BRACE ['}'] rest line col errs
  | '[' :: rest => punctOut fname TokenType.LEFT_BRACKET ['['] rest line col errs
  | ']' :: rest => punctOut fname TokenType.RIGHT_BRACKET [']'] rest line col errs
  | ';' :: rest => punctOut fname TokenType.SEMICOLON [';'] rest line col errs
  | ':' :: rest => punctOut fname TokenType.COLON [':'] rest line col errs
  | ',' :: rest => punctOut fname TokenType.COMMA [','] rest line col errs
  | '.' :: '.' :: '.' :: rest => punctOut fname TokenType.ELLIPSIS ['.', '.', '.'] rest line col errs
  | '.' :: rest => punctOut fname TokenType.OP_DOT ['.'] rest line col errs
  | '~' :: rest => punctOut fname TokenType.OP_TILDE ['~'] rest line col errs
  | '?' :: rest => punctOut fname TokenType.OP_QUESTION ['?'] rest line col errs
  | '#' :: rest => punctOut fname TokenType.HASH ['#'] rest line col errs
  | '+' :: '+' :: rest => punctOut fname TokenType.OP_PLUS_PLUS ['+', '+'] rest line col errs
  | '+' :: '=' :: rest => punctOut fname TokenType.OP_PLUS_EQUALS ['+', '='] rest line col errs
  | '+' :: rest => punctOut fname TokenType.OP_PLUS ['+'] rest line col errs
  | '-' :: '>' :: rest => punctOut fname TokenType.OP_ARROW ['-', '>'] rest line col errs
  | '-' :: '-' :: rest => punctOut fname TokenType.OP_MINUS_MINUS ['-', '-'] rest line col errs
  | '-' :: '=' :: rest => punctOut fname TokenType.OP_MINUS_EQUALS ['-', '='] rest line col errs
  | '-' :: rest => punctOut fname TokenType.OP_MINUS ['-'] rest line col errs
  | '*' :: '=' :: rest => punctOut fname TokenType.OP_STAR_EQUALS ['*', '='] rest line col errs
  | '*' :: rest => punctOut fname TokenType.OP_STAR ['*'] rest line col errs
  | '/' :: '=' :: rest => punctOut fname TokenType.OP_SLASH_EQUALS ['/', '='] rest line col errs
  | '/' :: rest => punctOut fname TokenType.OP_SLASH ['/'] rest line col errs
  | '%' :: '=' :: rest => punctOut fname TokenType.OP_PERCENT_EQUALS ['%', '='] rest line col errs
  | '%' :: rest => punctOut fname TokenType.OP_PERCENT ['%'] rest line col errs
  | '&' :: '&' :: rest => punctOut fname TokenType.OP_LOGICAL_AND ['&', '&'] rest line col errs
  | '&' :: '=' :: rest => punctOut fname TokenType.OP_AND_EQUALS ['&', '='] rest line col errs
  | '&' :: rest => punctOut fname TokenType.OP_AMPERSAND ['&'] rest line col errs
  | '|' :: '|' :: rest => punctOut fname TokenType.OP_LOGICAL_OR ['|', '|'] rest line col errs
  | '|' :: '=' :: rest => punctOut fname TokenType.OP_OR_EQUALS ['|', '='] rest line col errs
  | '|' :: rest => punctOut fname TokenType.OP_PIPE ['|'] rest line col errs
  | '^' :: '=' :: rest => punctOut fname TokenType.OP_XOR_EQUALS ['^', '='] rest line col errs
  | '^' :: rest => punctOut fname TokenType.OP_CARET ['^'] rest line col errs
  | '!' :: '=' :: rest => punctOut fname TokenType.OP_NOT_EQUALS ['!', '='] rest line col errs
  | '!' :: rest => punctOut fname TokenType.OP_EXCLAMATION ['!'] rest line col errs
  | '=' :: '=' :: rest => punctOut fname TokenType.OP_EQUALS_EQUALS ['=', '='] rest line col errs
  | '=' :: rest => punctOut fname TokenType.OP_EQUALS ['='] rest line col errs
  | '<' :: '=' :: rest => punctOut fname TokenType.OP_LESS_EQUALS ['<', '='] rest line col errs
  | '<' :: '<' :: '=' :: rest => punctOut fname TokenType.OP_SHL_EQUALS ['<', '<', '='] rest line col errs
  | '<' :: '<' :: rest => punctOut fname TokenType.OP_SHL ['<', '<'] rest line col errs
  | '<' :: rest => punctOut fname TokenType.OP_LESS ['<'] rest line col errs
  | '>' :: '=' :: rest => punctOut fname TokenType.OP_GREATER_EQUALS ['>', '='] rest line col errs
  | '>' :: '>' :: '=' :: rest => punctOut fname TokenType.OP_SHR_EQUALS ['>', '>', '='] rest line col errs
  | '>' :: '>' :: rest => punctOut fname TokenType.OP_SHR ['>', '>'] rest line col errs
  | '>' :: rest => punctOut fname TokenType.OP_GREATER ['>'] rest line col errs
  | '"' :: rest => stringLit fname rest line (col + 1) errs
  | '\'' :: rest => character fname rest line (col + 1) errs
  | c :: rest =>
      ⟨none, rest, line, col + 1,
        errError errs line (col + 1) ("Unexpected character: " ++ String.mk [c])⟩
  | [] => ⟨none, [], line, col, errs⟩

/-- `Lexer::scanToken`: skip whitespace and comments, then dispatch on the
first character (identifier, number, or the operator/punctuation switch). -/
def scanToken (src : List Char) (line col : Int) (errs : List ErrEntry) : ScanOut :=
  let (s1, l1, c1, e1) := skipWhitespace (src.length + 1) src line col errs
  match s1 with
  | [] => ⟨none, [], l1, c1, e1⟩
  | c :: rest =>
      if c.isAlpha ∨ c = '_' then
        let (tok, r, colA) := identifier fname (c :: rest) l1 c1
        ⟨some tok, r, l1, colA, e1⟩
      else if c.isDigit then number fname (c :: rest) l1 c1 e1
      else scanPunct fname (c :: rest) l1 c1 e1

/-- The scanning loop of `Lexer::tokenize`; the fuel bounds the number of
loop iterations (each iteration of the C++ loop consumes at least one
character, so `source.length + 1` is always sufficient). -/
def scanTokens : Nat → List Char → Int → Int → List ErrEntry →
    List Token × Int × Int × List ErrEntry
  | 0, _, line, col, errs => ([], line, col, errs)
  | fuel + 1, src, line, col, errs =>
      match src with
      | [] => ([], line, col, errs)
      | c :: rest =>
          let out := scanToken fname (c :: rest) line col errs
          let (toks, lf, cf, ef) := scanTokens fuel out.rest out.line out.col out.errs
          (out.tok?.toList ++ toks, lf, cf, ef)

/-- `Lexer::tokenize`: scan tokens until the end of the source, then append
the `EOF` token at the current position. -/
def tokenize (source : String) : List Token × List ErrEntry :=
  let (toks, line, col, errs) := scanTokens fname (source.length + 1) source.data 1 1 []
  (toks ++ [⟨TokenType.END_OF_FILE, "", fname, line, col⟩], errs)

end Lexer

/-! ## AST (`include/ast.h`)

The C++ AST uses base classes with virtual `getNodeType` strings; the
embedding uses one inductive per category.  Children held through
`std::unique_ptr` may be null after a move; the explicit
`ExpressionNode.null` constructor stands for such an empty child (it is
what `generateExpression`'s and `visitExpression`'s `!node` checks see). -/

mutual

/-- Expression nodes (`LiteralNode`, `VariableNode`, `UnaryNode`,
`BinaryNode`, `CallNode`, `ArrayAccessNode`, `MemberAccessNode`,
`ConditionalNode`), plus `null` for an empty `unique_ptr` child. -/
inductive ExpressionNode where
  | null
  | literal (token : Token)
  | var (name : Token)
  | unary (op : Token) (operand : ExpressionNode)
  | binary (left : ExpressionNode) (op : Token) (right : ExpressionNode)
  | call (callee : ExpressionNode) (arguments : List ExpressionNode)
  | arrayAccess (array index : ExpressionNode)
  | memberAccess (object : ExpressionNode) (op : Token) (member : Token)
  | conditional (condition trueExpr falseExpr : ExpressionNode)

end

/-- Surface types (`TypeNode` of `include/ast.h`). -/
structure TypeNode where
  name : Token
  isConst : Bool
  isVolatile : Bool
  isPointer : Bool
  pointerLevel : Int
deriving DecidableEq

/-- Function parameters (`ParameterNode` of `include/ast.h`). -/
structure ParameterNode where
  type : TypeNode
  name : Token
deriving DecidableEq

/-- Statement nodes (`ExpressionStatementNode`, `BlockNode`,
`VariableDeclarationNode`, `IfNode`, `WhileNode`, `DoWhileNode`, `ForNode`,
`ReturnNode`, `BreakNode`, `ContinueNode`); a `BlockNode` is its list of
statements. -/
inductive StatementNode where
  | expressionStatement (expression : ExpressionNode)
  | block (statements : List StatementNode)
  | variableDeclaration (type : TypeNode) (name : Token) (initializer : Option ExpressionNode)
  | ifNode (condition : ExpressionNode) (thenBranch : StatementNode)
      (elseBranch : Option StatementNode)
  | whileNode (condition : ExpressionNode) (body : StatementNode)
  | doWhileNode (body : StatementNode) (condition : ExpressionNode)
  | forNode (initializer : Option StatementNode) (condition : Option ExpressionNode)
      (increment : Option ExpressionNode) (body : StatementNode)
  | returnNode (value : Option ExpressionNode)
  | breakNode
  | continueNode

/-- `FunctionDeclarationNode` of `include/ast.h`; `body` is the block's
statement list, `none` for a bodiless prototype. -/
structure FunctionDeclarationNode where
  returnType : TypeNode
  name : Token
  parameters : List ParameterNode
  body : Option (List StatementNode)

/-- A top-level declaration of a `ProgramNode`: a function or a variable. -/
inductive DeclNode where
  | funcDecl (f : FunctionDeclarationNode)
  | varDecl (type : TypeNode) (name : Token) (initializer : Option ExpressionNode)

/-- `ProgramNode` of `include/ast.h`. -/
structure ProgramNode where
  declarations : List DeclNode

/-! ## Parser, expression grammar (`src/parser.cpp`)

The recursive-descent expression parser, embedded over the remaining token
list.  `throw std::runtime_error` is the `thrown` result (the diagnostic is
recorded before throwing, as in `Parser::consume`).  The fuel only bounds
recursion depth; it is irrelevant to the results proved below, which
evaluate the parser on concrete inputs. -/

/-- Result of an expression-parsing routine: the parsed node with the
remaining tokens and diagnostics, or a thrown parse error. -/
inductive PRes where
  | ok (e : ExpressionNode) (toks : List Token) (errs : List ErrEntry)
  | thrown (errs : List ErrEntry)

/-- Result of parsing a call's argument list. -/
inductive ARes where
  | ok (args : List ExpressionNode) (toks : List Token) (errs : List ErrEntry)
  | thrown (errs : List ErrEntry)

/-- An inert token for `peek` past the end of the vector; the parser is
only invoked on EOF-terminated token vectors, where this never happens. -/
def dummyToken : Token := ⟨TokenType.END_OF_FILE, "", "", 0, 0⟩

/-- `Parser::peek`. -/
def peekTok (toks : List Token) : Token := toks.headD dummyToken

/-- `Parser::isAtEnd`. -/
def parserAtEnd (toks : List Token) : Bool :=
  toks.isEmpty || (peekTok toks).type = TokenType.END_OF_FILE

/-- `Parser::check`. -/
def checkTok (t : TokenType) (toks : List Token) : Bool :=
  !parserAtEnd toks && (peekTok toks).type = t

/-- `Parser::match` on a single kind: consume and return the token. -/
def matchTok (t : TokenType) (toks : List Token) : Option (Token × List Token) :=
  match toks with
  | tok :: rest => if checkTok t (tok :: rest) then some (tok, rest) else none
  | [] => none

/-- `Parser::match` on an initializer list of kinds, tried in order. -/
def matchTokList (ts : List TokenType) (toks : List Token) : Option (Token × List Token) :=
  match ts with
  | [] => none
  | t :: rest =>
      match matchTok t toks with
      | some r => some r
      | none => matchTokList rest toks

/-- `Parser::consume`: advance past the expected kind, or record the
diagnostic and throw. -/
def consumeTok (t : TokenType) (msg : String) (toks : List Token) (errs : List ErrEntry) :
    Option (List Token) × List ErrEntry :=
  if checkTok t toks then (some toks.tail, errs)
  else (none, errError errs (peekTok toks).line (peekTok toks).column msg)

/-- The compound-assignment conversion table of `Parser::assignment`
("Convert += to +, etc."). -/
def compoundBinaryOp (t : TokenType) : TokenType :=
  match t with
  | TokenType.OP_PLUS_EQUALS => TokenType.OP_PLUS
  | TokenType.OP_MINUS_EQUALS => TokenType.OP_MINUS
  | TokenType.OP_STAR_EQUALS => TokenType.OP_STAR
  | TokenType.OP_SLASH_EQUALS => TokenType.OP_SLASH
  | TokenType.OP_PERCENT_EQUALS => TokenType.OP_PERCENT
  | TokenType.OP_AND_EQUALS => TokenType.OP_AMPERSAND
  | TokenType.OP_OR_EQUALS => TokenType.OP_PIPE
  | TokenType.OP_XOR_EQUALS => TokenType.OP_CARET
  | TokenType.OP_SHL_EQUALS => TokenType.OP_SHL
  | TokenType.OP_SHR_EQUALS => TokenType.OP_SHR
  | _ => TokenType.UNKNOWN

mutual

/-- `Parser::expression`. -/
def expression : Nat → List Token → List ErrEntry → PRes
  | 0, _, errs => PRes.thrown errs
  | fuel + 1, toks, errs => assignment fuel toks errs

/-- `Parser::assignment`.  After `auto right = make_unique<BinaryNode>(
std::move(expr), binaryToken, std::move(value))` the C++ local `expr` has
been moved from, so the second `std::move(expr)` in the outer `=` node
hands over a null `unique_ptr`: the outer node's left child is
`ExpressionNode.null`, not a copy of the left-hand subtree. -/
def assignment : Nat → List Token → List ErrEntry → PRes
  | 0, _, errs => PRes.thrown errs
  | fuel + 1, toks, errs =>
      match conditionalExpr fuel toks errs with
      | PRes.thrown e => PRes.thrown e
      | PRes.ok expr toks1 errs1 =>
          match matchTokList
              [TokenType.OP_EQUALS,
               TokenType.OP_PLUS_EQUALS, TokenType.OP_MINUS_EQUALS,
               TokenType.OP_STAR_EQUALS, TokenType.OP_SLASH_EQUALS,
               TokenType.OP_PERCENT_EQUALS, TokenType.OP_AND_EQUALS,
               TokenType.OP_OR_EQUALS, TokenType.OP_XOR_EQUALS,
               TokenType.OP_SHL_EQUALS, TokenType.OP_SHR_EQUALS] toks1 with
          | none => PRes.ok expr toks1 errs1
          | some (op, toks2) =>
              match assignment fuel toks2 errs1 with
              | PRes.thrown e => PRes.thrown e
              | PRes.ok value toks3 errs3 =>
                  let binaryOp := compoundBinaryOp op.type
                  if binaryOp ≠ TokenType.UNKNOWN then
                    let binaryToken : Token :=
                      ⟨binaryOp, op.lexeme.dropRight 1, op.filename, op.line, op.column⟩
                    let right := ExpressionNode.binary expr binaryToken value
                    let equalsToken : Token :=
                      ⟨TokenType.OP_EQUALS, "=", op.filename, op.line, op.column⟩
                    PRes.ok (ExpressionNode.binary ExpressionNode.null equalsToken right)
                      toks3 errs3
                  else PRes.ok (ExpressionNode.binary expr op value) toks3 errs3

/-- `Parser::conditionalExpr`. -/
def conditionalExpr : Nat → List Token → List ErrEntry → PRes
  | 0, _, errs => PRes.thrown errs
  | fuel + 1, toks, errs =>
      match logicalOr fuel toks errs with
      | PRes.thrown e => PRes.thrown e
      | PRes.ok condition toks1 errs1 =>
          match matchTok TokenType.OP_QUESTION toks1 with
          | none => PRes.ok condition toks1 errs1
          | some (_, toks2) =>
              match expression fuel toks2 errs1 with
              | PRes.thrown e => PRes.thrown e
              | PRes.ok trueExpr toks3 errs3 =>
                  match consumeTok TokenType.COLON
                      "Expected \x27:\x27 in conditional expression" toks3 errs3 with
                  | (none, errsT) => PRes.thrown errsT
                  | (some toks4, errs4) =>
                      match conditionalExpr fuel toks4 errs4 with
                      | PRes.thrown e => PRes.thrown e
                      | PRes.ok falseExpr toks5 errs5 =>
                          PRes.ok (ExpressionNode.conditional condition trueExpr falseExpr)
                            toks5 errs5

/-- `Parser::logicalOr`. -/
def logicalOr : Nat → List Token → List ErrEntry → PRes
  | 0, _, errs => PRes.thrown errs
  | fuel + 1, toks, errs =>
      match logicalAnd fuel toks errs with
      | PRes.thrown e => PRes.thrown e
      | PRes.ok expr toks1 errs1 => logicalOrLoop fuel expr toks1 errs1

/-- The `while (match(OP_LOGICAL_OR))` loop of `Parser::logicalOr`. -/
def logicalOrLoop : Nat → ExpressionNode → List Token → List ErrEntry → PRes
  | 0, _, _, errs => PRes.thrown errs
  | fuel + 1, expr, toks, errs =>
      match matchTok TokenType.OP_LOGICAL_OR toks with
      | none => PRes.ok expr toks errs
      | some (op, toks1) =>
          match logicalAnd fuel toks1 errs with
          | PRes.thrown e => PRes.thrown e
          | PRes.ok right toks2 errs2 =>
              logicalOrLoop fuel (ExpressionNode.binary expr op right) toks2 errs2

/-- `Parser::logicalAnd`. -/
def logicalAnd : Nat → List Token → List ErrEntry → PRes
  | 0, _, errs => PRes.thrown errs
  | fuel + 1, toks, errs =>
      match bitwiseOr fuel toks errs with
      | PRes.thrown e => PRes.thrown e
      | PRes.ok expr toks1 errs1 => logicalAndLoop fuel expr toks1 errs1

/-- The `while (match(OP_LOGICAL_AND))` loop of `Parser::logicalAnd`. -/
def logicalAndLoop : Nat → ExpressionNode → List Token → List ErrEntry → PRes
  | 0, _, _, errs => PRes.thrown errs
  | fuel + 1, expr, toks, errs =>
      match matchTok TokenType.OP_LOGICAL_AND toks with
      | none => PRes.ok expr toks errs
      | some (op, toks1) =>
          match bitwiseOr fuel toks1 errs with
          | PRes.thrown e => PRes.thrown e
          | PRes.ok right toks2 errs2 =>
              logicalAndLoop fuel (ExpressionNode.binary expr op right) toks2 errs2

/-- `Parser::bitwiseOr`. -/
def bitwiseOr : Nat → List Token → List ErrEntry → PRes
  | 0, _, errs => PRes.thrown errs
  | fuel + 1, toks, errs =>
      match bitwiseXor fuel toks errs with
      | PRes.thrown e => PRes.thrown e
      | PRes.ok expr toks1 errs1 => bitwiseOrLoop fuel expr toks1 errs1

/-- The `while (match(OP_PIPE))` loop of `Parser::bitwiseOr`. -/
def bitwiseOrLoop : Nat → ExpressionNode → List Token → List ErrEntry → PRes
  | 0, _, _, errs => PRes.thrown errs
  | fuel + 1, expr, toks, errs =>
      match matchTok TokenType.OP_PIPE toks with
      | none => PRes.ok expr toks errs
      | some (op, toks1) =>
          match bitwiseXor fuel toks1 errs with
          | PRes.thrown e => PRes.thrown e
          | PRes.ok right toks2 errs2 =>
              bitwiseOrLoop fuel (ExpressionNode.binary expr op right) toks2 errs2

/-- `Parser::bitwiseXor`. -/
def bitwiseXor : Nat → List Token → List ErrEntry → PRes
  | 0, _, errs => PRes.thrown errs
  | fuel + 1, toks, errs =>
      match bitwiseAnd fuel toks errs with
      | PRes.thrown e => PRes.thrown e
      | PRes.ok expr toks1 errs1 => bitwiseXorLoop fuel expr toks1 errs1

/-- The `while (match(OP_CARET))` loop of `Parser::bitwiseXor`. -/
def bitwiseXorLoop : Nat → ExpressionNode → List Token → List ErrEntry → PRes
  | 0, _, _, errs => PRes.thrown errs
  | fuel + 1, expr, toks, errs =>
      match matchTok TokenType.OP_CARET toks with
      | none => PRes.ok expr toks errs
      | some (op, toks1) =>
          match bitwiseAnd fuel toks1 errs with
          | PRes.thrown e => PRes.thrown e
          | PRes.ok right toks2 errs2 =>
              bitwiseXorLoop fuel (ExpressionNode.binary expr op right) toks2 errs2

/-- `Parser::bitwiseAnd`. -/
def bitwiseAnd : Nat → List Token → List ErrEntry → PRes
  | 0, _, errs => PRes.thrown errs
  | fuel + 1, toks, errs =>
      match equality fuel toks errs with
      | PRes.thrown e => PRes.thrown e
      | PRes.ok expr toks1 errs1 => bitwiseAndLoop fuel expr toks1 errs1

/-- The `while (match(OP_AMPERSAND))` loop of `Parser::bitwiseAnd`. -/
def bitwiseAndLoop : Nat → ExpressionNode → List Token → List ErrEntry → PRes
  | 0, _, _, errs => PRes.thrown errs
  | fuel + 1, expr, toks, errs =>
      match matchTok TokenType.OP_AMPERSAND toks with
      | none => PRes.ok expr toks errs
      | some (op, toks1) =>
          match equality fuel toks1 errs with
          | PRes.thrown e => PRes.thrown e
          | PRes.ok right toks2 errs2 =>
              bitwiseAndLoop fuel (ExpressionNode.binary expr op right) toks2 errs2

/-- `Parser::equality`. -/
def equality : Nat → List Token → List ErrEntry → PRes
  | 0, _, errs => PRes.thrown errs
  | fuel + 1, toks, errs =>
      match comparison fuel toks errs with
      | PRes.thrown e => PRes.thrown e
      | PRes.ok expr toks1 errs1 => equalityLoop fuel expr toks1 errs1

/-- The equality-operator loop of `Parser::equality`. -/
def equalityLoop : Nat → ExpressionNode → List Token → List ErrEntry → PRes
  | 0, _, _, errs => PRes.thrown errs
  | fuel + 1, expr, toks, errs =>
      match matchTokList [TokenType.OP_EQUALS_EQUALS, TokenType.OP_NOT_EQUALS] toks with
      | none => PRes.ok expr toks errs
      | some (op, toks1) =>
          match comparison fuel toks1 errs with
          | PRes.thrown e => PRes.thrown e
          | PRes.ok right toks2 errs2 =>
              equalityLoop fuel (ExpressionNode.binary expr op right) toks2 errs2

/-- `Parser::comparison`. -/
def comparison : Nat → List Token → List ErrEntry → PRes
  | 0, _, errs => PRes.thrown errs
  | fuel + 1, toks, errs =>
      match shift fuel toks errs with
      | PRes.thrown e => PRes.thrown e
      | PRes.ok expr toks1 errs1 => comparisonLoop fuel expr toks1 errs1

/-- The comparison-operator loop of `Parser::comparison`. -/
def comparisonLoop : Nat → ExpressionNode → List Token → List ErrEntry → PRes
  | 0, _, _, errs => PRes.thrown errs
  | fuel + 1, expr, toks, errs =>
      match matchTokList
          [TokenType.OP_LESS, TokenType.OP_LESS_EQUALS,
           TokenType.OP_GREATER, TokenType.OP_GREATER_EQUALS] toks with
      | none => PRes.ok expr toks errs
      | some (op, toks1) =>
          match shift fuel toks1 errs with
          | PRes.thrown e => PRes.thrown e
          | PRes.ok right toks2 errs2 =>
              comparisonLoop fuel (ExpressionNode.binary expr op right) toks2 errs2

/-- `Parser::shift`. -/
def shift : Nat → List Token → List ErrEntry → PRes
  | 0, _, errs => PRes.thrown errs
  | fuel + 1, toks, errs =>
      match term fuel toks errs with
      | PRes.thrown e => PRes.thrown e
      | PRes.ok expr toks1 errs1 => shiftLoop fuel expr toks1 errs1

/-- The shift-operator loop of `Parser::shift`. -/
def shiftLoop : Nat → ExpressionNode → List Token → List ErrEntry → PRes
  | 0, _, _, errs => PRes.thrown errs
  | fuel + 1, expr, toks, errs =>
      match matchTokList [TokenType.OP_SHL, TokenType.OP_SHR] toks with
      | none => PRes.ok expr toks errs
      | some (op, toks1) =>
          match term fuel toks1 errs with
          | PRes.thrown e => PRes.thrown e
          | PRes.ok right toks2 errs2 =>
              shiftLoop fuel (ExpressionNode.binary expr op right) toks2 errs2

/-- `Parser::term`. -/
def term : Nat → List Token → List ErrEntry → PRes
  | 0, _, errs => PRes.thrown errs
  | fuel + 1, toks, errs =>
      match factor fuel toks errs with
      | PRes.thrown e => PRes.thrown e
      | PRes.ok expr toks1 errs1 => termLoop fuel expr toks1 errs1

/-- The additive-operator loop of `Parser::term`. -/
def termLoop : Nat → ExpressionNode → List Token → List ErrEntry → PRes
  | 0, _, _, errs => PRes.thrown errs
  | fuel + 1, expr, toks, errs =>
      match matchTokList [TokenType.OP_PLUS, TokenType.OP_MINUS] toks with
      | none => PRes.ok expr toks errs
      | some (op, toks1) =>
          match factor fuel toks1 errs with
          | PRes.thrown e => PRes.thrown e
          | PRes.ok right toks2 errs2 =>
              termLoop fuel (ExpressionNode.binary expr op right) toks2 errs2

/-- `Parser::factor`. -/
def factor : Nat → List Token → List ErrEntry → PRes
  | 0, _, errs => PRes.thrown errs
  | fuel + 1, toks, errs =>
      match unary fuel toks errs with
      | PRes.thrown e => PRes.thrown e
      | PRes.ok expr toks1 errs1 => factorLoop fuel expr toks1 errs1

/-- The multiplicative-operator loop of `Parser::factor`. -/
def factorLoop : Nat → ExpressionNode → List Token → List ErrEntry → PRes
  | 0, _, _, errs => PRes.thrown errs
  | fuel + 1, expr, toks, errs =>
      match matchTokList [TokenType.OP_STAR, TokenType.OP_SLASH, TokenType.OP_PERCENT] toks with
      | none => PRes.ok expr toks errs
      | some (op, toks1) =>
          match unary fuel toks1 errs with
          | PRes.thrown e => PRes.thrown e
          | PRes.ok right toks2 errs2 =>
              factorLoop fuel (ExpressionNode.binary expr op right) toks2 errs2

/-- `Parser::unary`. -/
def unary : Nat → List Token → List ErrEntry → PRes
  | 0, _, errs => PRes.thrown errs
  | fuel + 1, toks, errs =>
      match matchTokList
          [TokenType.OP_MINUS, TokenType.OP_PLUS, TokenType.OP_EXCLAMATION,
           TokenType.OP_TILDE, TokenType.OP_STAR, TokenType.OP_AMPERSAND,
           TokenType.OP_PLUS_PLUS, TokenType.OP_MINUS_MINUS] toks with
      | some (op, toks1) =>
          match unary fuel toks1 errs with
          | PRes.thrown e => PRes.thrown e
          | PRes.ok operand toks2 errs2 =>
              PRes.ok (ExpressionNode.unary op operand) toks2 errs2
      | none => postfixExpr fuel toks errs

/-- `Parser::postfix`. -/
def postfixExpr : Nat → List Token → List ErrEntry → PRes
  | 0, _, errs => PRes.thrown errs
  | fuel + 1, toks, errs =>
      match primary fuel toks errs with
      | PRes.thrown e => PRes.thrown e
      | PRes.ok expr toks1 errs1 => postfixLoop fuel expr toks1 errs1

/-- The postfix loop of `Parser::postfix` (array access, call, member
access, postfix increment/decrement). -/
def postfixLoop : Nat → ExpressionNode → List Token → List ErrEntry → PRes
  | 0, _, _, errs => PRes.thrown errs
  | fuel + 1, expr, toks, errs =>
      match matchTok TokenType.LEFT_BRACKET toks with
      | some (_, toks1) =>
          match expression fuel toks1 errs with
          | PRes.thrown e => PRes.thrown e
          | PRes.ok index toks2 errs2 =>
              match consumeTok TokenType.RIGHT_BRACKET
                  "Expected \x27]\x27 after array index" toks2 errs2 with
              | (none, errsT) => PRes.thrown errsT
              | (some toks3, errs3) =>
                  postfixLoop fuel (ExpressionNode.arrayAccess expr index) toks3 errs3
      | none =>
      match matchTok TokenType.LEFT_PAREN toks with
      | some (_, toks1) =>
          let argsRes :=
            if checkTok TokenType.RIGHT_PAREN toks1 then ARes.ok [] toks1 errs
            else callArguments fuel [] toks1 errs
          match argsRes with
          | ARes.thrown e => PRes.thrown e
          | ARes.ok args toks2 errs2 =>
              match consumeTok TokenType.RIGHT_PAREN
                  "Expected \x27)\x27 after arguments" toks2 errs2 with
              | (none, errsT) => PRes.thrown errsT
              | (some toks3, errs3) =>
                  postfixLoop fuel (ExpressionNode.call expr args) toks3 errs3
      | none =>
      match matchTokList [TokenType.OP_DOT, TokenType.OP_ARROW] toks with
      | some (op, toks1) =>
          let member := peekTok toks1
          match consumeTok TokenType.IDENTIFIER
              "Expected identifier after \x27.\x27 or \x27->\x27" toks1 errs with
          | (none, errsT) => PRes.thrown errsT
          | (some toks2, errs2) =>
              postfixLoop fuel (ExpressionNode.memberAccess expr op member) toks2 errs2
      | none =>
      match matchTokList [TokenType.OP_PLUS_PLUS, TokenType.OP_MINUS_MINUS] toks with
      | some (op, toks1) => postfixLoop fuel (ExpressionNode.unary op expr) toks1 errs
      | none => PRes.ok expr toks errs

/-- The argument list of a call in `Parser::postfix` (`do ... while
(match(COMMA))`); accumulates parsed arguments. -/
def callArguments : Nat → List ExpressionNode → List Token → List ErrEntry → ARes
  | 0, _, _, errs => ARes.thrown errs
  | fuel + 1, acc, toks, errs =>
      match expression fuel toks errs with
      | PRes.thrown e => ARes.thrown e
      | PRes.ok arg toks1 errs1 =>
          match matchTok TokenType.COMMA toks1 with
          | some (_, toks2) => callArguments fuel (acc ++ [arg]) toks2 errs1
          | none => ARes.ok (acc ++ [arg]) toks1 errs1

/-- `Parser::primary`: literals, identifiers, and parenthesised
expressions; otherwise record "Expected expression" and throw. -/
def primary : Nat → List Token → List ErrEntry → PRes
  | 0, _, errs => PRes.thrown errs
  | fuel + 1, toks, errs =>
      match matchTokList
          [TokenType.INTEGER_LITERAL, TokenType.FLOAT_LITERAL,
           TokenType.CHAR_LITERAL, TokenType.STRING_LITERAL] toks with
      | some (tok, toks1) => PRes.ok (ExpressionNode.literal tok) toks1 errs
      | none =>
      match matchTok TokenType.IDENTIFIER toks with
      | some (tok, toks1) => PRes.ok (ExpressionNode.var tok) toks1 errs
      | none =>
      match matchTok TokenType.LEFT_PAREN toks with
      | some (_, toks1) =>
          match expression fuel toks1 errs with
          | PRes.thrown e => PRes.thrown e
          | PRes.ok expr toks2 errs2 =>
              match consumeTok TokenType.RIGHT_PAREN
                  "Expected \x27)\x27 after expression" toks2 errs2 with
              | (none, errsT) => PRes.thrown errsT
              | (some toks3, errs3) => PRes.ok expr toks3 errs3
      | none =>
          PRes.thrown
            (errError errs (peekTok toks).line (peekTok toks).column "Expected expression")

end

/-! ## Semantic analyzer (`include/semantic.h`, `src/semantic.cpp`) -/

/-- `TypeInfo::Kind` of `include/semantic.h`. -/
inductive TypeKind where
  | VOID
  | CHAR
  | INT
  | FLOAT
  | DOUBLE
  | STRUCT
  | ARRAY
  | POINTER
  | FUNCTION
deriving DecidableEq

/-- `TypeInfo` of `include/semantic.h`: kind, qualifiers, byte size, the
base type for pointers/arrays/functions, and function parameter types. -/
inductive TypeInfo where
  | mk (kind : TypeKind) (isConst : Bool) (isVolatile : Bool) (size : Int)
      (base : Option TypeInfo) (parameters : List TypeInfo)

/-- Field accessor for `TypeInfo.kind`. -/
def TypeInfo.kind : TypeInfo → TypeKind
  | TypeInfo.mk k _ _ _ _ _ => k

/-- Field accessor for `TypeInfo.isConst`. -/
def TypeInfo.isConst : TypeInfo → Bool
  | TypeInfo.mk _ c _ _ _ _ => c

/-- Field accessor for `TypeInfo.isVolatile`. -/
def TypeInfo.isVolatile : TypeInfo → Bool
  | TypeInfo.mk _ _ v _ _ _ => v

/-- Field accessor for `TypeInfo.size`. -/
def TypeInfo.size : TypeInfo → Int
  | TypeInfo.mk _ _ _ s _ _ => s

/-- Field accessor for `TypeInfo.base`. -/
def TypeInfo.base : TypeInfo → Option TypeInfo
  | TypeInfo.mk _ _ _ _ b _ => b

/-- Field accessor for `TypeInfo.parameters`. -/
def TypeInfo.parameters : TypeInfo → List TypeInfo
  | TypeInfo.mk _ _ _ _ _ p => p

/-- `TypeInfo::isScalar`. -/
def TypeInfo.isScalar (t : TypeInfo) : Bool :=
  t.kind = TypeKind.CHAR || t.kind = TypeKind.INT || t.kind = TypeKind.FLOAT ||
    t.kind = TypeKind.DOUBLE || t.kind = TypeKind.POINTER

/-- `TypeInfo::isNumeric`. -/
def TypeInfo.isNumeric (t : TypeInfo) : Bool :=
  t.kind = TypeKind.CHAR || t.kind = TypeKind.INT || t.kind = TypeKind.FLOAT ||
    t.kind = TypeKind.DOUBLE

/-- `TypeInfo::isInteger`. -/
def TypeInfo.isInteger (t : TypeInfo) : Bool :=
  t.kind = TypeKind.CHAR || t.kind = TypeKind.INT

/-- `TypeInfo::isFloatingPoint`. -/
def TypeInfo.isFloatingPoint (t : TypeInfo) : Bool :=
  t.kind = TypeKind.FLOAT || t.kind = TypeKind.DOUBLE

/-- `TypeInfo::createVoid`. -/
def createVoid : TypeInfo := TypeInfo.mk TypeKind.VOID false false 0 none []

/-- `TypeInfo::createChar`. -/
def createChar : TypeInfo := TypeInfo.mk TypeKind.CHAR false false 1 none []

/-- `TypeInfo::createInt`. -/
def createInt : TypeInfo := TypeInfo.mk TypeKind.INT false false 4 none []

/-- `TypeInfo::createFloat`. -/
def createFloat : TypeInfo := TypeInfo.mk TypeKind.FLOAT false false 4 none []

/-- `TypeInfo::createDouble`. -/
def createDouble : TypeInfo := TypeInfo.mk TypeKind.DOUBLE false false 8 none []

/-- `TypeInfo::createPointer`. -/
def createPointer (baseType : TypeInfo) : TypeInfo :=
  TypeInfo.mk TypeKind.POINTER false false 8 (some baseType) []

/-- `TypeInfo::createArray`. -/
def createArray (elementType : TypeInfo) (size : Int) : TypeInfo :=
  TypeInfo.mk TypeKind.ARRAY false false (elementType.size * size) (some elementType) []

/-- `TypeInfo::createFunction`. -/
def createFunction (returnType : TypeInfo) (paramTypes : List TypeInfo) : TypeInfo :=
  TypeInfo.mk TypeKind.FUNCTION false false 0 (some returnType) paramTypes

/-- `SymbolInfo::Kind` of `include/semantic.h`. -/
inductive SymKind where
  | VARIABLE
  | FUNCTION
  | PARAMETER
  | TYPEDEF
deriving DecidableEq

/-- `SymbolInfo` of `include/semantic.h`. -/
structure SymbolInfo where
  kind : SymKind
  type : TypeInfo
  name : String
  scopeLevel : Int

/-- One scope frame: the embedding of one `std::unordered_map<std::string,
SymbolInfo>` as an association list with unique keys. -/
abbrev Frame := List (String × SymbolInfo)

/-- `map[name] = info`: insert-or-assign on a frame. -/
def frameSet (f : Frame) (name : String) (info : SymbolInfo) : Frame :=
  match f with
  | [] => [(name, info)]
  | (k, v) :: rest => if k = name then (name, info) :: rest else (k, v) :: frameSet rest name info

/-- `map.find(name)` on a frame. -/
def frameFind (f : Frame) (name : String) : Option SymbolInfo :=
  match f with
  | [] => none
  | (k, v) :: rest => if k = name then some v else frameFind rest name

/-- The symbol table of `src/semantic.cpp`: a vector of scope frames plus
the index of the current scope. -/
structure SymbolTable where
  scopes : List Frame
  currentScope : Nat

/-- `SymbolTable::SymbolTable`: one empty global frame, current scope 0. -/
def SymbolTable.new : SymbolTable := ⟨[[]], 0⟩

/-- `SymbolTable::enterScope`: increment the scope index and push a fresh
empty frame only when the index runs past the stored frames; an existing
frame at the new index is reused as is. -/
def SymbolTable.enterScope (st : SymbolTable) : SymbolTable :=
  let cur := st.currentScope + 1
  if cur ≥ st.scopes.length then ⟨st.scopes ++ [[]], cur⟩ else ⟨st.scopes, cur⟩

/-- `SymbolTable::leaveScope`: decrement the scope index; the stored frames
are not popped or cleared.  (The C++ method throws when already at the
global scope; every caller keeps enter/leave balanced, so that branch is
unreachable and the embedding leaves the table unchanged there.) -/
def SymbolTable.leaveScope (st : SymbolTable) : SymbolTable :=
  if st.currentScope = 0 then st else ⟨st.scopes, st.currentScope - 1⟩

/-- `SymbolTable::addVariable`. -/
def SymbolTable.addVariable (st : SymbolTable) (name : String) (type : TypeInfo) : SymbolTable :=
  ⟨st.scopes.set st.currentScope
      (frameSet (st.scopes.getD st.currentScope []) name
        ⟨SymKind.VARIABLE, type, name, (st.currentScope : Int)⟩),
    st.currentScope⟩

/-- `SymbolTable::addFunction`: always registers into frame 0 with scope
level 0, whatever the current scope is. -/
def SymbolTable.addFunction (st : SymbolTable) (name : String) (type : TypeInfo) : SymbolTable :=
  ⟨st.scopes.set 0 (frameSet (st.scopes.getD 0 []) name ⟨SymKind.FUNCTION, type, name, 0⟩),
    st.currentScope⟩

/-- `SymbolTable::addParameter`. -/
def SymbolTable.addParameter (st : SymbolTable) (name : String) (type : TypeInfo) : SymbolTable :=
  ⟨st.scopes.set st.currentScope
      (frameSet (st.scopes.getD st.currentScope []) name
        ⟨SymKind.PARAMETER, type, name, (st.currentScope : Int)⟩),
    st.currentScope⟩

/-- `SymbolTable::existsInCurrentScope`. -/
def SymbolTable.existsInCurrentScope (st : SymbolTable) (name : String) : Bool :=
  (frameFind (st.scopes.getD st.currentScope []) name).isSome

/-- The scan of `SymbolTable::lookup`, from frame `i` down to frame 0. -/
def lookupFrom (scopes : List Frame) : Nat → String → Option SymbolInfo
  | 0, name => frameFind (scopes.getD 0 []) name
  | i + 1, name =>
      match frameFind (scopes.getD (i + 1) []) name with
      | some s => some s
      | none => lookupFrom scopes i name

/-- `SymbolTable::lookup`: innermost frame first, down to the global one. -/
def SymbolTable.lookup (st : SymbolTable) (name : String) : Option SymbolInfo :=
  lookupFrom st.scopes st.currentScope name

/-- `SemanticAnalyzer::getTypeFromTypeNode`: map the surface type to a
`TypeInfo` (unknown base types report an error and yield void), then wrap
in `pointerLevel` pointer layers. -/
def getTypeFromTypeNode (node : TypeNode) (errs : List ErrEntry) : TypeInfo × List ErrEntry :=
  let (kind, size, errs1) :=
    if node.name.type = TokenType.KW_VOID then (TypeKind.VOID, (0 : Int), errs)
    else if node.name.type = TokenType.KW_CHAR then (TypeKind.CHAR, 1, errs)
    else if node.name.type = TokenType.KW_INT then (TypeKind.INT, 4, errs)
    else if node.name.type = TokenType.KW_FLOAT then (TypeKind.FLOAT, 4, errs)
    else if node.name.type = TokenType.KW_DOUBLE then (TypeKind.DOUBLE, 8, errs)
    else (TypeKind.VOID, 0,
      errError errs node.name.line node.name.column ("Unknown type: " ++ node.name.lexeme))
  let baseType := TypeInfo.mk kind node.isConst node.isVolatile size none []
  let result :=
    if node.isPointer then (List.range node.pointerLevel.toNat).foldl
        (fun acc _ => createPointer acc) baseType
    else baseType
  (result, errs1)

/-- `SemanticAnalyzer::areTypesCompatible` (`compat(src, tgt)`): identical
kinds (recursively on the base type for compound kinds), char-to-int,
float-to-double, integer-to-floating, and array-to-pointer decay.  The C++
code dereferences `base` unconditionally for compound kinds; every
compound `TypeInfo` the analyzer builds carries a base, so the `none`
fallback is unreachable. -/
def areTypesCompatible : TypeInfo → TypeInfo → Bool
  | source@(TypeInfo.mk _ _ _ _ sb _), target@(TypeInfo.mk _ _ _ _ tb _) =>
    if source.kind = target.kind then
      if source.kind = TypeKind.ARRAY ∨ source.kind = TypeKind.POINTER ∨
          source.kind = TypeKind.FUNCTION then
        match sb, tb with
        | some sbv, some tbv => areTypesCompatible sbv tbv
        | _, _ => false
      else true
    else if source.kind = TypeKind.CHAR ∧ target.kind = TypeKind.INT then true
    else if source.kind = TypeKind.FLOAT ∧ target.kind = TypeKind.DOUBLE then true
    else if source.isInteger ∧ target.isFloatingPoint then true
    else if source.kind = TypeKind.ARRAY ∧ target.kind = TypeKind.POINTER then
      match sb, tb with
      | some sbv, some tbv => areTypesCompatible sbv tbv
      | _, _ => false
    else false

/-- `SemanticAnalyzer::getCommonType` (`common_num`): identical kinds return
the left operand; otherwise double, then float, dominate; two integer
types pick the larger byte size with ties going to the left operand. -/
def getCommonType (a b : TypeInfo) : TypeInfo :=
  if a.kind = b.kind then a
  else if a.kind = TypeKind.DOUBLE ∨ b.kind = TypeKind.DOUBLE then createDouble
  else if a.kind = TypeKind.FLOAT ∨ b.kind = TypeKind.FLOAT then createFloat
  else if a.isInteger ∧ b.isInteger then (if a.size ≥ b.size then a else b)
  else a

/-- Mutable analyzer state of `SemanticAnalyzer`: symbol table, current
function return-type context, return flag, and recorded diagnostics. -/
structure SemState where
  symbolTable : SymbolTable
  currentFunctionReturnType : Option TypeInfo
  hasReturn : Bool
  errs : List ErrEntry

/-- Append an error-severity diagnostic to the analyzer state. -/
def semErr (st : SemState) (line col : Int) (msg : String) : SemState :=
  { st with errs := errError st.errs line col msg }

/-- Append a warning-severity diagnostic to the analyzer state. -/
def semWarn (st : SemState) (line col : Int) (msg : String) : SemState :=
  { st with errs := errWarning st.errs line col msg }

/-- The numeric value of a `TypeInfo::Kind` enumerator, used by
`std::to_string(static_cast<int>(kind))` in diagnostics. -/
def kindIndex : TypeKind → Nat
  | TypeKind.VOID => 0
  | TypeKind.CHAR => 1
  | TypeKind.INT => 2
  | TypeKind.FLOAT => 3
  | TypeKind.DOUBLE => 4
  | TypeKind.STRUCT => 5
  | TypeKind.ARRAY => 6
  | TypeKind.POINTER => 7
  | TypeKind.FUNCTION => 8

/-- `SemanticAnalyzer::visitLiteral`. -/
def visitLiteral (tok : Token) (st : SemState) : TypeInfo × SemState :=
  if tok.type = TokenType.INTEGER_LITERAL then (createInt, st)
  else if tok.type = TokenType.FLOAT_LITERAL then (createFloat, st)
  else if tok.type = TokenType.CHAR_LITERAL then (createChar, st)
  else if tok.type = TokenType.STRING_LITERAL then
    (createArray createChar ((tok.lexeme.length : Int) - 2 + 1), st)
  else (createVoid, semErr st tok.line tok.column "Unknown literal type")

/-- `SemanticAnalyzer::visitVariable`: type from the symbol-table lookup;
an undefined identifier reports "Undefined variable \x27name\x27" at the
identifier's position and yields void. -/
def visitVariable (name : Token) (st : SemState) : TypeInfo × SemState :=
  match st.symbolTable.lookup name.lexeme with
  | some symbol => (symbol.type, st)
  | none =>
      (createVoid,
        semErr st name.line name.column ("Undefined variable \x27" ++ name.lexeme ++ "\x27"))

/-- The operator switch of `SemanticAnalyzer::visitUnary`, applied to the
operand's computed type. -/
def visitUnaryTypes (op : Token) (operandType : TypeInfo) (st : SemState) :
    TypeInfo × SemState :=
  if op.type = TokenType.OP_MINUS ∨ op.type = TokenType.OP_PLUS then
    if !operandType.isNumeric then
      (createVoid, semErr st op.line op.column
        ("Unary operator " ++ op.lexeme ++ " requires numeric operand"))
    else (operandType, st)
  else if op.type = TokenType.OP_EXCLAMATION then
    if !operandType.isScalar then
      (createVoid, semErr st op.line op.column "Unary operator ! requires scalar operand")
    else (createInt, st)
  else if op.type = TokenType.OP_TILDE then
    if !operandType.isInteger then
      (createVoid, semErr st op.line op.column "Unary operator ~ requires integer operand")
    else (operandType, st)
  else if op.type = TokenType.OP_STAR then
    if operandType.kind ≠ TypeKind.POINTER then
      (createVoid, semErr st op.line op.column "Cannot dereference non-pointer type")
    else
      -- `*operandType.base`: pointer types built by this analyzer always
      -- carry a base, so the fallback is unreachable
      ((operandType.base.getD createVoid), st)
  else if op.type = TokenType.OP_AMPERSAND then (createPointer operandType, st)
  else if op.type = TokenType.OP_PLUS_PLUS ∨ op.type = TokenType.OP_MINUS_MINUS then
    if !operandType.isNumeric ∧ operandType.kind ≠ TypeKind.POINTER then
      (createVoid, semErr st op.line op.column
        ("Unary operator " ++ op.lexeme ++ " requires numeric or pointer operand"))
    else (operandType, st)
  else (createVoid, semErr st op.line op.column ("Unknown unary operator: " ++ op.lexeme))

/-- The operator switch of `SemanticAnalyzer::visitBinary`, applied to the
operands' computed types. -/
def visitBinaryTypes (op : Token) (leftType rightType : TypeInfo) (st : SemState) :
    TypeInfo × SemState :=
  if op.type = TokenType.OP_PLUS then
    if leftType.kind = TypeKind.POINTER ∧ rightType.isInteger then (leftType, st)
    else if leftType.isInteger ∧ rightType.kind = TypeKind.POINTER then (rightType, st)
    else if leftType.isNumeric ∧ rightType.isNumeric then (getCommonType leftType rightType, st)
    else (createVoid, semErr st op.line op.column "Invalid operands to binary +")
  else if op.type = TokenType.OP_MINUS then
    if leftType.kind = TypeKind.POINTER ∧ rightType.isInteger then (leftType, st)
    else if leftType.kind = TypeKind.POINTER ∧ rightType.kind = TypeKind.POINTER then
      (createInt, st)
    else if leftType.isNumeric ∧ rightType.isNumeric then (getCommonType leftType rightType, st)
    else (createVoid, semErr st op.line op.column "Invalid operands to binary -")
  else if op.type = TokenType.OP_STAR ∨ op.type = TokenType.OP_SLASH ∨
      op.type = TokenType.OP_PERCENT then
    if leftType.isNumeric ∧ rightType.isNumeric then (getCommonType leftType rightType, st)
    else (createVoid, semErr st op.line op.column ("Invalid operands to binary " ++ op.lexeme))
  else if op.type = TokenType.OP_LESS ∨ op.type = TokenType.OP_LESS_EQUALS ∨
      op.type = TokenType.OP_GREATER ∨ op.type = TokenType.OP_GREATER_EQUALS ∨
      op.type = TokenType.OP_EQUALS_EQUALS ∨ op.type = TokenType.OP_NOT_EQUALS then
    if !areTypesCompatible leftType rightType ∧ !areTypesCompatible rightType leftType then
      (createVoid, semErr st op.line op.column "Incompatible types for comparison")
    else (createInt, st)
  else if op.type = TokenType.OP_AMPERSAND ∨ op.type = TokenType.OP_PIPE ∨
      op.type = TokenType.OP_CARET ∨ op.type = TokenType.OP_SHL ∨
      op.type = TokenType.OP_SHR then
    if !leftType.isInteger ∨ !rightType.isInteger then
      (createVoid, semErr st op.line op.column "Bitwise operators require integer operands")
    else (getCommonType leftType rightType, st)
  else if op.type = TokenType.OP_LOGICAL_AND ∨ op.type = TokenType.OP_LOGICAL_OR then
    if !leftType.isScalar ∨ !rightType.isScalar then
      (createVoid, semErr st op.line op.column "Logical operators require scalar operands")
    else (createInt, st)
  else if op.type = TokenType.OP_EQUALS then
    if !areTypesCompatible rightType leftType then
      (createVoid, semErr st op.line op.column "Cannot assign incompatible type")
    else (leftType, st)
  else (createVoid, semErr st op.line op.column ("Unknown binary operator: " ++ op.lexeme))

mutual

/-- `SemanticAnalyzer::visitExpression`: dispatch over the expression
variants; a null child yields void (the `if (!node)` guard). -/
def visitExpression : ExpressionNode → SemState → TypeInfo × SemState
  | ExpressionNode.null, st => (createVoid, st)
  | ExpressionNode.literal tok, st => visitLiteral tok st
  | ExpressionNode.var name, st => visitVariable name st
  | ExpressionNode.unary op operand, st =>
      let (operandType, st1) := visitExpression operand st
      visitUnaryTypes op operandType st1
  | ExpressionNode.binary left op right, st =>
      let (leftType, st1) := visitExpression left st
      let (rightType, st2) := visitExpression right st1
      visitBinaryTypes op leftType rightType st2
  | ExpressionNode.call callee arguments, st =>
      let (calleeType, st1) := visitExpression callee st
      if calleeType.kind ≠ TypeKind.FUNCTION then
        (createVoid, semErr st1 0 0 "Called object is not a function")
      else if arguments.length ≠ calleeType.parameters.length then
        (createVoid, semErr st1 0 0 "Wrong number of arguments to function call")
      else
        let st2 := visitCallArgs arguments calleeType.parameters st1
        (calleeType.base.getD createVoid, st2)
  | ExpressionNode.arrayAccess array index, st =>
      let (arrayType, st1) := visitExpression array st
      let (indexType, st2) := visitExpression index st1
      if arrayType.kind ≠ TypeKind.ARRAY ∧ arrayType.kind ≠ TypeKind.POINTER then
        (createVoid, semErr st2 0 0 "Subscripted value is not an array or pointer")
      else if !indexType.isInteger then
        (createVoid, semErr st2 0 0 "Array index must be an integer")
      else (arrayType.base.getD createVoid, st2)
  | ExpressionNode.memberAccess object op _member, st =>
      let (objectType, st1) := visitExpression object st
      if op.type = TokenType.OP_DOT ∧ objectType.kind ≠ TypeKind.STRUCT then
        (createVoid, semErr st1 op.line op.column
          "Left operand of \x27.\x27 must be a struct")
      else if op.type = TokenType.OP_ARROW ∧
          (objectType.kind ≠ TypeKind.POINTER ∨
            ((objectType.base.map (fun b => decide (b.kind ≠ TypeKind.STRUCT))).getD false
              = true)) then
        (createVoid, semErr st1 op.line op.column
          "Left operand of \x27->\x27 must be a pointer to a struct")
      else
        (createInt, semWarn st1 op.line op.column "Struct member access not fully implemented")
  | ExpressionNode.conditional condition trueExpr falseExpr, st =>
      let (condType, st1) := visitExpression condition st
      if !condType.isScalar then
        (createVoid, semErr st1 0 0 "Conditional operator requires scalar condition")
      else
        let (trueType, st2) := visitExpression trueExpr st1
        let (falseType, st3) := visitExpression falseExpr st2
        if areTypesCompatible trueType falseType then (trueType, st3)
        else if areTypesCompatible falseType trueType then (falseType, st3)
        else (createVoid, semErr st3 0 0 "Incompatible types in conditional expression")

/-- The argument-checking loop of `SemanticAnalyzer::visitCall` (entered
only when argument and parameter counts match). -/
def visitCallArgs : List ExpressionNode → List TypeInfo → SemState → SemState
  | [], _, st => st
  | _ :: _, [], st => st
  | arg :: rest, p :: ps, st =>
      let (argType, st1) := visitExpression arg st
      let st2 :=
        if !areTypesCompatible argType p then
          semErr st1 0 0 "Argument type mismatch in function call"
        else st1
      visitCallArgs rest ps st2

end

/-- `SemanticAnalyzer::visitExpressionStatement`. -/
def visitExpressionStatement (e : ExpressionNode) (st : SemState) : SemState :=
  (visitExpression e st).2

/-- `SemanticAnalyzer::visitVariableDeclaration`: redeclaration in the same
scope is an error; an initializer must be assignment-compatible with the
declared type; the binding is then added to the current scope. -/
def visitVariableDeclaration (type : TypeNode) (name : Token)
    (initializer : Option ExpressionNode) (st : SemState) : SemState :=
  let (ty, errs1) := getTypeFromTypeNode type st.errs
  let st1 := { st with errs := errs1 }
  if st1.symbolTable.existsInCurrentScope name.lexeme then
    semErr st1 name.line name.column
      ("Variable \x27" ++ name.lexeme ++ "\x27 already declared in this scope")
  else
    let st2 :=
      match initializer with
      | some init =>
          let (initType, stI) := visitExpression init st1
          if !areTypesCompatible initType ty then
            semErr stI name.line name.column
              ("Cannot initialize variable of type \x27" ++ toString (kindIndex ty.kind) ++
                "\x27 with expression of type \x27" ++ toString (kindIndex initType.kind) ++ "\x27")
          else stI
      | none => st1
    { st2 with symbolTable := st2.symbolTable.addVariable name.lexeme ty }

/-- `SemanticAnalyzer::visitParameter`: unnamed parameters are skipped;
duplicates are an error; otherwise the parameter is added. -/
def visitParameter (p : ParameterNode) (st : SemState) : SemState :=
  let (ty, errs1) := getTypeFromTypeNode p.type st.errs
  let st1 := { st with errs := errs1 }
  if p.name.lexeme.isEmpty then st1
  else if st1.symbolTable.existsInCurrentScope p.name.lexeme then
    semErr st1 p.name.line p.name.column
      ("Parameter \x27" ++ p.name.lexeme ++ "\x27 already declared")
  else { st1 with symbolTable := st1.symbolTable.addParameter p.name.lexeme ty }

/-- `SemanticAnalyzer::visitReturnStatement`: outside a function this is an
error; otherwise the return flag is set and the payload is checked against
the current return type. -/
def visitReturnStatement (value : Option ExpressionNode) (st : SemState) : SemState :=
  match st.currentFunctionReturnType with
  | none => semErr st 0 0 "Return statement outside of function"
  | some returnType =>
      let st1 := { st with hasReturn := true }
      match value with
      | some v =>
          let (valueType, st2) := visitExpression v st1
          if !areTypesCompatible valueType returnType then
            semErr st2 0 0 "Cannot return value of incompatible type"
          else st2
      | none =>
          if returnType.kind ≠ TypeKind.VOID then
            semErr st1 0 0 "Non-void function should return a value"
          else st1

/-- `SemanticAnalyzer::visitBreakStatement`: the C++ body is empty ("Could
check if we're inside a loop or switch (not implemented)"). -/
def visitBreakStatement (st : SemState) : SemState := st

/-- `SemanticAnalyzer::visitContinueStatement`: the C++ body is empty. -/
def visitContinueStatement (st : SemState) : SemState := st

mutual

/-- `SemanticAnalyzer::visitBlock`: enter a scope, visit the statements,
leave the scope.  The fuel only bounds nesting depth and is irrelevant on
the concrete programs evaluated below. -/
def visitBlock : Nat → List StatementNode → SemState → SemState
  | 0, _, st => st
  | fuel + 1, statements, st =>
      let st1 := { st with symbolTable := st.symbolTable.enterScope }
      let st2 := visitStmtList fuel statements st1
      { st2 with symbolTable := st2.symbolTable.leaveScope }

/-- The statement loop of `SemanticAnalyzer::visitBlock`. -/
def visitStmtList : Nat → List StatementNode → SemState → SemState
  | 0, _, st => st
  | fuel + 1, stmts, st =>
      match stmts with
      | [] => st
      | s :: rest => visitStmtList fuel rest (visitStatementSem fuel s st)

/-- The `getNodeType` dispatch chain of `SemanticAnalyzer::visitBlock`. -/
def visitStatementSem : Nat → StatementNode → SemState → SemState
  | 0, _, st => st
  | fuel + 1, stmt, st =>
      match stmt with
      | StatementNode.expressionStatement e => visitExpressionStatement e st
      | StatementNode.variableDeclaration ty name init => visitVariableDeclaration ty name init st
      | StatementNode.block stmts => visitBlock fuel stmts st
      | StatementNode.ifNode c t e => visitIfStatement fuel c t e st
      | StatementNode.whileNode c b => visitWhileStatement fuel c b st
      | StatementNode.doWhileNode b c => visitDoWhileStatement fuel b c st
      | StatementNode.forNode i c u b => visitForStatement fuel i c u b st
      | StatementNode.returnNode v => visitReturnStatement v st
      | StatementNode.breakNode => visitBreakStatement st
      | StatementNode.continueNode => visitContinueStatement st

/-- The shared branch-body pattern of `visitIfStatement`,
`visitWhileStatement`, `visitDoWhileStatement` and `visitForStatement`: a
block body is visited as a block; any other statement is visited inside an
implicit scope through a dispatch chain that does not list `BlockNode`
(that case cannot arise there). -/
def visitBody : Nat → StatementNode → SemState → SemState
  | 0, _, st => st
  | fuel + 1, body, st =>
      match body with
      | StatementNode.block stmts => visitBlock fuel stmts st
      | other =>
          let st1 := { st with symbolTable := st.symbolTable.enterScope }
          let st2 :=
            match other with
            | StatementNode.block _ => st1
            | StatementNode.expressionStatement e => visitExpressionStatement e st1
            | StatementNode.variableDeclaration ty name init =>
                visitVariableDeclaration ty name init st1
            | StatementNode.ifNode c t e => visitIfStatement fuel c t e st1
            | StatementNode.whileNode c b => visitWhileStatement fuel c b st1
            | StatementNode.doWhileNode b c => visitDoWhileStatement fuel b c st1
            | StatementNode.forNode i c u b => visitForStatement fuel i c u b st1
            | StatementNode.returnNode v => visitReturnStatement v st1
            | StatementNode.breakNode => visitBreakStatement st1
            | StatementNode.continueNode => visitContinueStatement st1
          { st2 with symbolTable := st2.symbolTable.leaveScope }

/-- `SemanticAnalyzer::visitIfStatement`. -/
def visitIfStatement : Nat → ExpressionNode → StatementNode → Option StatementNode →
    SemState → SemState
  | 0, _, _, _, st => st
  | fuel + 1, condition, thenBranch, elseBranch, st =>
      let (condType, st1) := visitExpression condition st
      let st2 :=
        if !condType.isScalar then semErr st1 0 0 "If condition must be a scalar type" else st1
      let st3 := visitBody fuel thenBranch st2
      match elseBranch with
      | some e => visitBody fuel e st3
      | none => st3

/-- `SemanticAnalyzer::visitWhileStatement`. -/
def visitWhileStatement : Nat → ExpressionNode → StatementNode → SemState → SemState
  | 0, _, _, st => st
  | fuel + 1, condition, body, st =>
      let (condType, st1) := visitExpression condition st
      let st2 :=
        if !condType.isScalar then semErr st1 0 0 "While condition must be a scalar type" else st1
      visitBody fuel body st2

/-- `SemanticAnalyzer::visitDoWhileStatement`: body first, then the
condition check. -/
def visitDoWhileStatement : Nat → StatementNode → ExpressionNode → SemState → SemState
  | 0, _, _, st => st
  | fuel + 1, body, condition, st =>
      let st1 := visitBody fuel body st
      let (condType, st2) := visitExpression condition st1
      if !condType.isScalar then semErr st2 0 0 "Do-while condition must be a scalar type" else st2

/-- `SemanticAnalyzer::visitForStatement`: opens its own scope around
initializer, condition, increment and body; the initializer dispatch lists
only expression statements and variable declarations. -/
def visitForStatement : Nat → Option StatementNode → Option ExpressionNode →
    Option ExpressionNode → StatementNode → SemState → SemState
  | 0, _, _, _, _, st => st
  | fuel + 1, initializer, condition, increment, body, st =>
      let st1 := { st with symbolTable := st.symbolTable.enterScope }
      let st2 :=
        match initializer with
        | some (StatementNode.expressionStatement e) => visitExpressionStatement e st1
        | some (StatementNode.variableDeclaration ty name init) =>
            visitVariableDeclaration ty name init st1
        | _ => st1
      let st3 :=
        match condition with
        | some c =>
            let (condType, stC) := visitExpression c st2
            if !condType.isScalar then semErr stC 0 0 "For condition must be a scalar type"
            else stC
        | none => st2
      let st4 :=
        match increment with
        | some u => (visitExpression u st3).2
        | none => st3
      let st5 := visitBody fuel body st4
      { st5 with symbolTable := st5.symbolTable.leaveScope }

end

/-- `SemanticAnalyzer::visitFunctionDeclaration`: build the function type,
reject same-scope redeclaration, register the function (always into the
global frame), then check the body inside a fresh scope with the
return-type context set; a non-void function whose body set no return flag
reports "Function \x27name\x27 may not return a value". -/
def visitFunctionDeclaration (fuel : Nat) (node : FunctionDeclarationNode)
    (st : SemState) : SemState :=
  let (returnType, errs1) := getTypeFromTypeNode node.returnType st.errs
  let (paramTypes, errs2) :=
    node.parameters.foldl
      (fun (acc : List TypeInfo × List ErrEntry) p =>
        let (t, e) := getTypeFromTypeNode p.type acc.2
        (acc.1 ++ [t], e))
      ([], errs1)
  let st0 := { st with errs := errs2 }
  let functionType := createFunction returnType paramTypes
  if st0.symbolTable.existsInCurrentScope node.name.lexeme then
    semErr st0 node.name.line node.name.column
      ("Function \x27" ++ node.name.lexeme ++ "\x27 already declared in this scope")
  else
    let st1 := { st0 with symbolTable := st0.symbolTable.addFunction node.name.lexeme functionType }
    match node.body with
    | none => st1
    | some body =>
        let st2 := { st1 with
          symbolTable := st1.symbolTable.enterScope,
          currentFunctionReturnType := some returnType,
          hasReturn := returnType.kind = TypeKind.VOID }
        let st3 := node.parameters.foldl (fun acc p => visitParameter p acc) st2
        let st4 := visitBlock fuel body st3
        let st5 :=
          if !st4.hasReturn ∧ returnType.kind ≠ TypeKind.VOID then
            semErr st4 node.name.line node.name.column
              ("Function \x27" ++ node.name.lexeme ++ "\x27 may not return a value")
          else st4
        let st6 := { st5 with currentFunctionReturnType := none }
        { st6 with symbolTable := st6.symbolTable.leaveScope }

/-- `SemanticAnalyzer::visitProgram`. -/
def visitProgram (fuel : Nat) (node : ProgramNode) (st : SemState) : SemState :=
  node.declarations.foldl
    (fun acc d =>
      match d with
      | DeclNode.funcDecl f => visitFunctionDeclaration fuel f acc
      | DeclNode.varDecl ty name init => visitVariableDeclaration ty name init acc)
    st

/-- `SemanticAnalyzer::analyze` on a program root: clear the symbol table
and visit the program.  The fuel (statement-nesting bound) is fixed large
enough for every program considered here. -/
def semAnalyze (prog : ProgramNode) : SemState :=
  visitProgram 1000 prog ⟨SymbolTable.new, none, false, []⟩

/-! ## Code generator (`include/codegen.h`, `src/codegen.cpp`)

The COIL object is the external collaborator consumed through the builder
interface (`addSymbol`, `findSymbol`, `addSection`, `addInstruction`).  The
numeric values of the COIL type codes and attribute bits live in external
headers outside this repository; the embedding keeps the type codes as an
enumeration and picks distinct bits for the attribute flags, since only
their identity is ever relied upon.  A `FP32` immediate carries the source
lexeme instead of an IEEE value (no verified claim depends on it). -/

/-- The COIL operand type codes used by the code generator (`coil::Type`):
value types, plus the two ABI-control combinations `ABICTL | PARAM` and
`ABICTL | RET`. -/
inductive CoilType where
  | INT8
  | INT32
  | FP32
  | FP64
  | PTR
  | VOIDT
  | ABIPARAM
  | ABIRET
deriving DecidableEq

/-- The COIL opcodes used by the code generator (`coil::Opcode`). -/
inductive Opcode where
  | PROC
  | SYM
  | VAR
  | SCOPEE
  | SCOPEL
  | MOV
  | CMP
  | BR
  | ADD
  | SUB
  | MUL
  | DIV
  | MOD
  | NEG
  | NOT
  | INC
  | DEC
  | INDEX
  | CALL
  | RET
deriving DecidableEq

/-- COIL instruction operands (`coil::Operand`): typed immediates, virtual
variables, and symbol references. -/
inductive Operand where
  | immU8 (v : Int)
  | immU16 (v : Int)
  | immI8 (v : Int)
  | immI32 (v : Int)
  | immF32 (lexeme : String)
  | immTy (t : CoilType)
  | varOp (id : Nat)
  | symOp (idx : Nat)
deriving DecidableEq

/-- A COIL instruction (`coil::Instruction`). -/
structure Instruction where
  opcode : Opcode
  operands : List Operand
deriving DecidableEq

/-- `coil::SymbolFlags` (bits picked distinct; actual values live in the
external COIL headers). -/
def symGLOBAL : Nat := 1

/-- `coil::SymbolFlags::FUNCTION`. -/
def symFUNCTION : Nat := 2

/-- `coil::SymbolFlags::DATA`. -/
def symDATA : Nat := 4

/-- `coil::SectionFlags` (bits picked distinct; actual values live in the
external COIL headers). -/
def secEXECUTABLE : Nat := 1

/-- `coil::SectionFlags::READABLE`. -/
def secREADABLE : Nat := 2

/-- `coil::SectionFlags::WRITABLE`. -/
def secWRITABLE : Nat := 4

/-- `coil::SectionFlags::INITIALIZED`. -/
def secINITIALIZED : Nat := 8

/-- `coil::SectionFlags::UNINITIALIZED`. -/
def secUNINITIALIZED : Nat := 16

/-- A COIL symbol record (`coil::Symbol`). -/
structure CoilSymbol where
  name : String
  name_length : Nat
  attributes : Nat
  value : Nat
  section_index : Nat
  processor_type : Nat
deriving DecidableEq

/-- A COIL section record (`coil::Section`). -/
structure CoilSection where
  name_index : Nat
  attributes : Nat
  offset : Nat
  size : Nat
  address : Nat
  alignment : Nat
  processor_type : Nat
deriving DecidableEq

/-- The COIL object builder (`coil::CoilObject`): append-only symbol and
section arrays plus the per-section instruction stream, recorded here as
an append-only list of (section index, instruction) pairs. -/
structure CoilObject where
  symbols : List CoilSymbol
  sections : List CoilSection
  instructions : List (Nat × Instruction)
deriving DecidableEq

/-- `CoilObject::addSymbol`: append, returning the new index. -/
def CoilObject.addSymbol (o : CoilObject) (s : CoilSymbol) : Nat × CoilObject :=
  (o.symbols.length, { o with symbols := o.symbols ++ [s] })

/-- `CoilObject::addSection`: append, returning the new index. -/
def CoilObject.addSection (o : CoilObject) (s : CoilSection) : Nat × CoilObject :=
  (o.sections.length, { o with sections := o.sections ++ [s] })

/-- `CoilObject::findSymbol`: index of the first symbol with the given
name (`UINT16_MAX`, i.e. `none`, when absent). -/
def CoilObject.findSymbol (o : CoilObject) (name : String) : Option Nat :=
  (o.symbols.findIdx? (fun s => s.name = name))

/-- `CoilObject::addInstruction`. -/
def CoilObject.addInstruction (o : CoilObject) (sectionIndex : Nat) (i : Instruction) :
    CoilObject :=
  { o with instructions := o.instructions ++ [(sectionIndex, i)] }

/-- `struct Variable` of `include/codegen.h`. -/
structure CGVariable where
  name : String
  varId : Nat
  type : CoilType
deriving DecidableEq

/-- The mutable state of `CodeGenerator`. -/
structure CGState where
  coilObject : CoilObject
  textSectionIndex : Nat
  dataSectionIndex : Nat
  bssSectionIndex : Nat
  varMap : List (String × CGVariable)
  nextVarId : Nat
  scopeStack : List (List String)
  currentFunction : String
  labelCounter : Int
  errs : List ErrEntry
deriving DecidableEq

/-- Append an error-severity diagnostic to the generator state. -/
def cgErr (s : CGState) (line col : Int) (msg : String) : CGState :=
  { s with errs := errError s.errs line col msg }

/-- Append a warning-severity diagnostic to the generator state. -/
def cgWarn (s : CGState) (line col : Int) (msg : String) : CGState :=
  { s with errs := errWarning s.errs line col msg }

/-- `CodeGenerator::getNextVarId` (`nextVarId++`). -/
def getNextVarId (s : CGState) : Nat × CGState :=
  (s.nextVarId, { s with nextVarId := s.nextVarId + 1 })

/-- `CodeGenerator::emitInstruction`: append to the text section. -/
def emitInstruction (s : CGState) (opcode : Opcode) (operands : List Operand) : CGState :=
  { s with coilObject := s.coilObject.addInstruction s.textSectionIndex ⟨opcode, operands⟩ }

/-- `CodeGenerator::addSymbol`: reuse an existing symbol of the same name,
else append a new one with the given attributes and section. -/
def cgAddSymbol (s : CGState) (name : String) (attributes : Nat := 0)
    (sectionIndex : Nat := 0) : Nat × CGState :=
  match s.coilObject.findSymbol name with
  | some existing => (existing, s)
  | none =>
      let (idx, o) := s.coilObject.addSymbol
        ⟨name, name.length, attributes, 0, sectionIndex, 1⟩
      (idx, { s with coilObject := o })

/-- `insert-or-assign` on the generator's flat `variables` map. -/
def varsSet (vars : List (String × CGVariable)) (name : String) (v : CGVariable) :
    List (String × CGVariable) :=
  match vars with
  | [] => [(name, v)]
  | (k, w) :: rest => if k = name then (name, v) :: rest else (k, w) :: varsSet rest name v

/-- `variables.find(name)` on the generator's flat map. -/
def varsFind (vars : List (String × CGVariable)) (name : String) : Option CGVariable :=
  match vars with
  | [] => none
  | (k, w) :: rest => if k = name then some w else varsFind rest name

/-- `variables.erase(name)` on the generator's flat map (keys are unique). -/
def varsErase (vars : List (String × CGVariable)) (name : String) :
    List (String × CGVariable) :=
  vars.filter (fun p => p.1 ≠ name)

/-- `CodeGenerator::enterScope`: push an empty per-scope name list. -/
def cgEnterScope (s : CGState) : CGState :=
  { s with scopeStack := [] :: s.scopeStack }

/-- `CodeGenerator::leaveScope`: erase every name recorded in the top
scope from the flat `variables` map, then pop. -/
def cgLeaveScope (s : CGState) : CGState :=
  match s.scopeStack with
  | [] => s
  | top :: rest =>
      { s with
        varMap := top.foldl (fun vars n => varsErase vars n) s.varMap,
        scopeStack := rest }

/-- Record a declared name in the current scope's cleanup list
(`scopeStack.top().push_back(name)`); the stack is never empty when this
runs, as declarations only occur inside a function scope. -/
def pushScopeName (s : CGState) (name : String) : CGState :=
  match s.scopeStack with
  | [] => s
  | top :: rest => { s with scopeStack := (top ++ [name]) :: rest }

/-- `CodeGenerator::generateLabel`: `<prefix>_<n>` with a fresh counter
value. -/
def generateLabel (s : CGState) (pfx : String) : String × CGState :=
  (pfx ++ "_" ++ toString s.labelCounter, { s with labelCounter := s.labelCounter + 1 })

/-- `CodeGenerator::emitScopeEnter`. -/
def emitScopeEnter (s : CGState) : CGState := emitInstruction s Opcode.SCOPEE []

/-- `CodeGenerator::emitScopeLeave`. -/
def emitScopeLeave (s : CGState) : CGState := emitInstruction s Opcode.SCOPEL []

/-- `CodeGenerator::emitVarDeclaration`: `VAR(varId, type[, init])`, the
initializer operand appearing only when the id is nonzero. -/
def emitVarDeclaration (s : CGState) (varId : Nat) (type : CoilType)
    (initializer : Nat := 0) : CGState :=
  let varOperands := [Operand.varOp varId, Operand.immTy type] ++
    (if initializer ≠ 0 then [Operand.varOp initializer] else [])
  emitInstruction s Opcode.VAR varOperands

/-- `CodeGenerator::emitLabel`: find-or-create the label symbol in the
text section and emit `SYM`. -/
def emitLabel (s : CGState) (label : String) : CGState :=
  let (symbolIndex, s1) := cgAddSymbol s label 0 s.textSectionIndex
  emitInstruction s1 Opcode.SYM [Operand.symOp symbolIndex]

/-- `CodeGenerator::translateType`: surface type to COIL type; unknown
base types warn ("Unknown type ..., defaulting to int") and yield INT32. -/
def translateType (typeNode : TypeNode) (s : CGState) : CoilType × CGState :=
  if typeNode.name.type = TokenType.KW_INT then
    (if typeNode.isPointer then CoilType.PTR else CoilType.INT32, s)
  else if typeNode.name.type = TokenType.KW_CHAR then
    (if typeNode.isPointer then CoilType.PTR else CoilType.INT8, s)
  else if typeNode.name.type = TokenType.KW_FLOAT then (CoilType.FP32, s)
  else if typeNode.name.type = TokenType.KW_DOUBLE then (CoilType.FP64, s)
  else if typeNode.name.type = TokenType.KW_VOID then
    (if typeNode.isPointer then CoilType.PTR else CoilType.VOIDT, s)
  else
    (CoilType.INT32,
      cgWarn s typeNode.name.line typeNode.name.column
        ("Unknown type \x27" ++ typeNode.name.lexeme ++ "\x27, defaulting to int"))

/-- `std::stoi` as used on integer-literal lexemes: optional sign, then the
leading run of decimal digits. -/
def stoiPrefix (sv : String) : Int :=
  let digitsVal : List Char → Int := fun cs =>
    (cs.takeWhile Char.isDigit).foldl (fun a c => a * 10 + ((c.toNat : Int) - 48)) 0
  match sv.data with
  | '-' :: rest => -(digitsVal rest)
  | '+' :: rest => digitsVal rest
  | cs => digitsVal cs

/-- The character-literal decoding of `CodeGenerator::generateLiteral`:
`lexeme[1]`, with the escape switch when it is a backslash. -/
def charLitValue (lexeme : String) : Int :=
  let cs := lexeme.data
  let v := cs.getD 1 ' '
  if v = '\\' ∧ cs.length > 2 then
    let esc := cs.getD 2 ' '
    if esc = 'n' then 10
    else if esc = 't' then 9
    else if esc = 'r' then 13
    else if esc = '0' then 0
    else if esc = '\\' then 92
    else if esc = '\'' then 39
    else if esc = '"' then 34
    else (esc.toNat : Int)
  else (v.toNat : Int)

/-- `CodeGenerator::generateLiteral`: allocate a fresh result variable,
declare it, and move the literal value in; string literals warn and yield
a null `PTR` placeholder; an unknown literal kind is an error yielding 0
(the fresh id stays consumed, no `VAR` is emitted). -/
def generateLiteral (tok : Token) (s : CGState) : Nat × CGState :=
  let (resultVarId, s1) := getNextVarId s
  if tok.type = TokenType.INTEGER_LITERAL then
    let value := stoiPrefix tok.lexeme
    let s2 := emitVarDeclaration s1 resultVarId CoilType.INT32
    let s3 := emitInstruction s2 Opcode.MOV [Operand.varOp resultVarId, Operand.immI32 value]
    (resultVarId, s3)
  else if tok.type = TokenType.FLOAT_LITERAL then
    let s2 := emitVarDeclaration s1 resultVarId CoilType.FP32
    let s3 := emitInstruction s2 Opcode.MOV
      [Operand.varOp resultVarId, Operand.immF32 tok.lexeme]
    (resultVarId, s3)
  else if tok.type = TokenType.CHAR_LITERAL then
    let s2 := emitVarDeclaration s1 resultVarId CoilType.INT8
    let s3 := emitInstruction s2 Opcode.MOV
      [Operand.varOp resultVarId, Operand.immI8 (charLitValue tok.lexeme)]
    (resultVarId, s3)
  else if tok.type = TokenType.STRING_LITERAL then
    let s2 := cgWarn s1 0 0 "String literals not fully implemented"
    let s3 := emitVarDeclaration s2 resultVarId CoilType.PTR
    let s4 := emitInstruction s3 Opcode.MOV [Operand.varOp resultVarId, Operand.immI32 0]
    (resultVarId, s4)
  else (0, cgErr s1 0 0 "Unknown literal type")

/-- `CodeGenerator::generateVariable`: a use returns the bound var id
directly; an unbound name is an error yielding id 0. -/
def generateVariable (name : Token) (s : CGState) : Nat × CGState :=
  match varsFind s.varMap name.lexeme with
  | some v => (v.varId, s)
  | none => (0, cgErr s name.line name.column ("Undefined variable: " ++ name.lexeme))

mutual

/-- `CodeGenerator::generateExpression`: dispatch over the expression
variants; a null child is the "Null expression" error yielding id 0. -/
def generateExpression : ExpressionNode → CGState → Nat × CGState
  | ExpressionNode.null, s => (0, cgErr s 0 0 "Null expression")
  | ExpressionNode.literal tok, s => generateLiteral tok s
  | ExpressionNode.var name, s => generateVariable name s
  | ExpressionNode.unary op operand, s =>
      let (operandVarId, s1) := generateExpression operand s
      let (resultVarId, s2) := getNextVarId s1
      let resultType := CoilType.INT32
      if op.type = TokenType.OP_MINUS then
        let s3 := emitVarDeclaration s2 resultVarId resultType
        let s4 := emitInstruction s3 Opcode.NEG
          [Operand.varOp resultVarId, Operand.varOp operandVarId]
        (resultVarId, s4)
      else if op.type = TokenType.OP_PLUS then
        let s3 := emitVarDeclaration s2 resultVarId resultType
        let s4 := emitInstruction s3 Opcode.MOV
          [Operand.varOp resultVarId, Operand.varOp operandVarId]
        (resultVarId, s4)
      else if op.type = TokenType.OP_EXCLAMATION then
        let s3 := emitVarDeclaration s2 resultVarId resultType
        let s4 := emitInstruction s3 Opcode.CMP
          [Operand.varOp operandVarId, Operand.immI32 0]
        let s5 := emitInstruction s4 Opcode.MOV
          [Operand.varOp resultVarId, Operand.immI32 1]
        (resultVarId, s5)
      else if op.type = TokenType.OP_TILDE then
        let s3 := emitVarDeclaration s2 resultVarId resultType
        let s4 := emitInstruction s3 Opcode.NOT
          [Operand.varOp resultVarId, Operand.varOp operandVarId]
        (resultVarId, s4)
      else if op.type = TokenType.OP_PLUS_PLUS then
        let s3 := emitVarDeclaration s2 resultVarId resultType
        let s4 := emitInstruction s3 Opcode.MOV
          [Operand.varOp resultVarId, Operand.varOp operandVarId]
        let s5 := emitInstruction s4 Opcode.INC [Operand.varOp operandVarId]
        (resultVarId, s5)
      else if op.type = TokenType.OP_MINUS_MINUS then
        let s3 := emitVarDeclaration s2 resultVarId resultType
        let s4 := emitInstruction s3 Opcode.MOV
          [Operand.varOp resultVarId, Operand.varOp operandVarId]
        let s5 := emitInstruction s4 Opcode.DEC [Operand.varOp operandVarId]
        (resultVarId, s5)
      else if op.type = TokenType.OP_STAR then
        (operandVarId, cgWarn s2 0 0 "Dereference operator not fully implemented")
      else if op.type = TokenType.OP_AMPERSAND then
        (operandVarId, cgWarn s2 0 0 "Address-of operator not fully implemented")
      else
        (0, cgErr s2 op.line op.column ("Unknown unary operator: " ++ op.lexeme))
  | ExpressionNode.binary left op right, s =>
      let (leftVarId, s1) := generateExpression left s
      let (rightVarId, s2) := generateExpression right s1
      let (resultVarId, s3) := getNextVarId s2
      let resultType := CoilType.INT32
      if op.type = TokenType.OP_PLUS then
        let s4 := emitVarDeclaration s3 resultVarId resultType
        let s5 := emitInstruction s4 Opcode.ADD
          [Operand.varOp resultVarId, Operand.varOp leftVarId, Operand.varOp rightVarId]
        (resultVarId, s5)
      else if op.type = TokenType.OP_MINUS then
        let s4 := emitVarDeclaration s3 resultVarId resultType
        let s5 := emitInstruction s4 Opcode.SUB
          [Operand.varOp resultVarId, Operand.varOp leftVarId, Operand.varOp rightVarId]
        (resultVarId, s5)
      else if op.type = TokenType.OP_STAR then
        let s4 := emitVarDeclaration s3 resultVarId resultType
        let s5 := emitInstruction s4 Opcode.MUL
          [Operand.varOp resultVarId, Operand.varOp leftVarId, Operand.varOp rightVarId]
        (resultVarId, s5)
      else if op.type = TokenType.OP_SLASH then
        let s4 := emitVarDeclaration s3 resultVarId resultType
        let s5 := emitInstruction s4 Opcode.DIV
          [Operand.varOp resultVarId, Operand.varOp leftVarId, Operand.varOp rightVarId]
        (resultVarId, s5)
      else if op.type = TokenType.OP_PERCENT then
        let s4 := emitVarDeclaration s3 resultVarId resultType
        let s5 := emitInstruction s4 Opcode.MOD
          [Operand.varOp resultVarId, Operand.varOp leftVarId, Operand.varOp rightVarId]
        (resultVarId, s5)
      else if op.type = TokenType.OP_EQUALS then
        let s4 := emitInstruction s3 Opcode.MOV
          [Operand.varOp leftVarId, Operand.varOp rightVarId]
        (leftVarId, s4)
      else
        (0, cgErr s3 op.line op.column ("Binary operator not implemented: " ++ op.lexeme))
  | ExpressionNode.call callee arguments, s =>
      match callee with
      | ExpressionNode.var nameTok =>
          let funcName := nameTok.lexeme
          let (argVarIds, s1) := generateArgs arguments s
          let (returnVarId, s2) := getNextVarId s1
          let s3 := emitVarDeclaration s2 returnVarId CoilType.INT32
          let (funcSymbol, s4) := cgAddSymbol s3 funcName
          let callOperands := [Operand.symOp funcSymbol, Operand.immTy CoilType.ABIPARAM] ++
            argVarIds.map Operand.varOp
          let s5 := emitInstruction s4 Opcode.CALL callOperands
          let s6 := emitInstruction s5 Opcode.MOV
            [Operand.varOp returnVarId, Operand.immTy CoilType.ABIRET]
          (returnVarId, s6)
      | _ => (0, cgErr s 0 0 "Only simple function calls supported")
  | ExpressionNode.arrayAccess array index, s =>
      let (arrayVarId, s1) := generateExpression array s
      let (indexVarId, s2) := generateExpression index s1
      let (resultVarId, s3) := getNextVarId s2
      let s4 := emitVarDeclaration s3 resultVarId CoilType.INT32
      let s5 := emitInstruction s4 Opcode.INDEX
        [Operand.varOp resultVarId, Operand.varOp arrayVarId, Operand.varOp indexVarId]
      (resultVarId, s5)
  | ExpressionNode.memberAccess _ _ _, s =>
      (0, cgWarn s 0 0 "Member access not implemented")
  | ExpressionNode.conditional condition trueExpr falseExpr, s =>
      let (condVarId, s1) := generateExpression condition s
      let (falseLabel, s2) := generateLabel s1 "cond_false"
      let (endLabel, s3) := generateLabel s2 "cond_end"
      let (resultVarId, s4) := getNextVarId s3
      let s5 := emitVarDeclaration s4 resultVarId CoilType.INT32
      let s6 := emitInstruction s5 Opcode.CMP [Operand.varOp condVarId, Operand.immI32 0]
      let (falseSym, s7) := cgAddSymbol s6 falseLabel
      let s8 := emitInstruction s7 Opcode.BR [Operand.symOp falseSym]
      let (trueVarId, s9) := generateExpression trueExpr s8
      let s10 := emitInstruction s9 Opcode.MOV
        [Operand.varOp resultVarId, Operand.varOp trueVarId]
      let (endSym, s11) := cgAddSymbol s10 endLabel
      let s12 := emitInstruction s11 Opcode.BR [Operand.symOp endSym]
      let s13 := emitLabel s12 falseLabel
      let (falseVarId, s14) := generateExpression falseExpr s13
      let s15 := emitInstruction s14 Opcode.MOV
        [Operand.varOp resultVarId, Operand.varOp falseVarId]
      let s16 := emitLabel s15 endLabel
      (resultVarId, s16)

/-- The left-to-right argument loop of `CodeGenerator::generateCall`. -/
def generateArgs : List ExpressionNode → CGState → List Nat × CGState
  | [], s => ([], s)
  | arg :: rest, s =>
      let (argId, s1) := generateExpression arg s
      let (restIds, s2) := generateArgs rest s1
      (argId :: restIds, s2)

end

/-- `CodeGenerator::generateVariableDeclaration`: globals become symbols in
`.data` (with initializer) or `.bss` (without); locals get a fresh var id,
the flat-map binding, a cleanup-list entry, and a `VAR` instruction with
the evaluated initializer when present. -/
def generateVariableDeclaration (isGlobal : Bool) (type : TypeNode) (name : Token)
    (initializer : Option ExpressionNode) (s : CGState) : CGState :=
  let (varType, s1) := translateType type s
  if isGlobal then
    let sectionIndex := if initializer.isSome then s1.dataSectionIndex else s1.bssSectionIndex
    let (_, s2) := cgAddSymbol s1 name.lexeme (symGLOBAL ||| symDATA) sectionIndex
    s2
  else
    let (varId, s2) := getNextVarId s1
    let s3 := { s2 with varMap := varsSet s2.varMap name.lexeme ⟨name.lexeme, varId, varType⟩ }
    let s4 := pushScopeName s3 name.lexeme
    match initializer with
    | some init =>
        let (initVarId, s5) := generateExpression init s4
        emitVarDeclaration s5 varId varType initVarId
    | none => emitVarDeclaration s4 varId varType

/-- `CodeGenerator::generateReturnStatement`. -/
def generateReturnStatement (value : Option ExpressionNode) (s : CGState) : CGState :=
  match value with
  | some v =>
      let (returnVarId, s1) := generateExpression v s
      emitInstruction s1 Opcode.RET [Operand.immTy CoilType.ABIRET, Operand.varOp returnVarId]
  | none => emitInstruction s Opcode.RET [Operand.immTy CoilType.ABIRET]

/-- `CodeGenerator::generateBreakStatement`: the loop-context tracking is
unimplemented; the C++ code only records the warning
"Break statement not fully implemented" at 0:0 and emits nothing. -/
def generateBreakStatement (s : CGState) : CGState :=
  cgWarn s 0 0 "Break statement not fully implemented"

/-- `CodeGenerator::generateContinueStatement`: records only the warning
"Continue statement not fully implemented" and emits nothing. -/
def generateContinueStatement (s : CGState) : CGState :=
  cgWarn s 0 0 "Continue statement not fully implemented"

mutual

/-- `CodeGenerator::generateStatement` dispatch.  The fuel only bounds
statement nesting and is irrelevant on the concrete programs below. -/
def generateStatement : Nat → StatementNode → CGState → CGState
  | 0, _, s => s
  | fuel + 1, stmt, s =>
      match stmt with
      | StatementNode.block stmts => generateBlock fuel stmts s
      | StatementNode.expressionStatement e => (generateExpression e s).2
      | StatementNode.variableDeclaration ty name init =>
          generateVariableDeclaration false ty name init s
      | StatementNode.ifNode c t e => generateIfStatement fuel c t e s
      | StatementNode.whileNode c b => generateWhileStatement fuel c b s
      | StatementNode.doWhileNode b c => generateDoWhileStatement fuel b c s
      | StatementNode.forNode i c u b => generateForStatement fuel i c u b s
      | StatementNode.returnNode v => generateReturnStatement v s
      | StatementNode.breakNode => generateBreakStatement s
      | StatementNode.continueNode => generateContinueStatement s

/-- `CodeGenerator::generateBlock`: `SCOPEE`, scope entry, the statements,
scope exit, `SCOPEL`. -/
def generateBlock : Nat → List StatementNode → CGState → CGState
  | 0, _, s => s
  | fuel + 1, stmts, s =>
      let s1 := cgEnterScope (emitScopeEnter s)
      let s2 := generateStmtList fuel stmts s1
      emitScopeLeave (cgLeaveScope s2)

/-- The statement loop of `CodeGenerator::generateBlock`. -/
def generateStmtList : Nat → List StatementNode → CGState → CGState
  | 0, _, s => s
  | fuel + 1, stmts, s =>
      match stmts with
      | [] => s
      | st :: rest => generateStmtList fuel rest (generateStatement fuel st s)

/-- `CodeGenerator::generateIfStatement`. -/
def generateIfStatement : Nat → ExpressionNode → StatementNode → Option StatementNode →
    CGState → CGState
  | 0, _, _, _, s => s
  | fuel + 1, condition, thenBranch, elseBranch, s =>
      let (elseLabel, s1) := generateLabel s "else"
      let (endIfLabel, s2) := generateLabel s1 "endif"
      let (condVarId, s3) := generateExpression condition s2
      let s4 := emitInstruction s3 Opcode.CMP [Operand.varOp condVarId, Operand.immI32 0]
      let (elseSym, s5) := cgAddSymbol s4 elseLabel
      let s6 := emitInstruction s5 Opcode.BR [Operand.symOp elseSym]
      let s7 := generateStatement fuel thenBranch s6
      let (endSym, s8) := cgAddSymbol s7 endIfLabel
      let s9 := emitInstruction s8 Opcode.BR [Operand.symOp endSym]
      let s10 := emitLabel s9 elseLabel
      let s11 :=
        match elseBranch with
        | some e => generateStatement fuel e s10
        | none => s10
      emitLabel s11 endIfLabel

/-- `CodeGenerator::generateWhileStatement`. -/
def generateWhileStatement : Nat → ExpressionNode → StatementNode → CGState → CGState
  | 0, _, _, s => s
  | fuel + 1, condition, body, s =>
      let (startLabel, s1) := generateLabel s "while_start"
      let (endLabel, s2) := generateLabel s1 "while_end"
      let s3 := emitLabel s2 startLabel
      let (condVarId, s4) := generateExpression condition s3
      let s5 := emitInstruction s4 Opcode.CMP [Operand.varOp condVarId, Operand.immI32 0]
      let (endSym, s6) := cgAddSymbol s5 endLabel
      let s7 := emitInstruction s6 Opcode.BR [Operand.symOp endSym]
      let s8 := generateStatement fuel body s7
      let (startSym, s9) := cgAddSymbol s8 startLabel
      let s10 := emitInstruction s9 Opcode.BR [Operand.symOp startSym]
      emitLabel s10 endLabel

/-- `CodeGenerator::generateDoWhileStatement`. -/
def generateDoWhileStatement : Nat → StatementNode → ExpressionNode → CGState → CGState
  | 0, _, _, s => s
  | fuel + 1, body, condition, s =>
      let (startLabel, s1) := generateLabel s "dowhile_start"
      let (conditionLabel, s2) := generateLabel s1 "dowhile_condition"
      let (endLabel, s3) := generateLabel s2 "dowhile_end"
      let s4 := emitLabel s3 startLabel
      let s5 := generateStatement fuel body s4
      let s6 := emitLabel s5 conditionLabel
      let (condVarId, s7) := generateExpression condition s6
      let s8 := emitInstruction s7 Opcode.CMP [Operand.varOp condVarId, Operand.immI32 0]
      let (endSym, s9) := cgAddSymbol s8 endLabel
      let s10 := emitInstruction s9 Opcode.BR [Operand.symOp endSym]
      let (startSym, s11) := cgAddSymbol s10 startLabel
      let s12 := emitInstruction s11 Opcode.BR [Operand.symOp startSym]
      emitLabel s12 endLabel

/-- `CodeGenerator::generateForStatement`. -/
def generateForStatement : Nat → Option StatementNode → Option ExpressionNode →
    Option ExpressionNode → StatementNode → CGState → CGState
  | 0, _, _, _, _, s => s
  | fuel + 1, initializer, condition, increment, body, s =>
      let (startLabel, s1) := generateLabel s "for_start"
      let (incrementLabel, s2) := generateLabel s1 "for_increment"
      let (endLabel, s3) := generateLabel s2 "for_end"
      let s4 := cgEnterScope (emitScopeEnter s3)
      let s5 :=
        match initializer with
        | some i => generateStatement fuel i s4
        | none => s4
      let s6 := emitLabel s5 startLabel
      let s7 :=
        match condition with
        | some c =>
            let (condVarId, sC) := generateExpression c s6
            let sD := emitInstruction sC Opcode.CMP [Operand.varOp condVarId, Operand.immI32 0]
            let (endSym, sE) := cgAddSymbol sD endLabel
            emitInstruction sE Opcode.BR [Operand.symOp endSym]
        | none => s6
      let s8 := generateStatement fuel body s7
      let s9 := emitLabel s8 incrementLabel
      let s10 :=
        match increment with
        | some u => (generateExpression u s9).2
        | none => s9
      let (startSym, s11) := cgAddSymbol s10 startLabel
      let s12 := emitInstruction s11 Opcode.BR [Operand.symOp startSym]
      let s13 := emitLabel s12 endLabel
      emitScopeLeave (cgLeaveScope s13)

end

/-- The parameter loop of `CodeGenerator::generateFunctionDeclaration`:
named parameters get a fresh var id, the flat-map binding, a cleanup-list
entry, a `VAR` declaration, and a `MOV` from ABI parameter slot `i`. -/
def generateParams : List ParameterNode → Nat → CGState → CGState
  | [], _, s => s
  | p :: rest, i, s =>
      if p.name.lexeme.isEmpty then generateParams rest (i + 1) s
      else
        let (paramType, s1) := translateType p.type s
        let (paramVarId, s2) := getNextVarId s1
        let s3 := { s2 with
          varMap := varsSet s2.varMap p.name.lexeme ⟨p.name.lexeme, paramVarId, paramType⟩ }
        let s4 := pushScopeName s3 p.name.lexeme
        let s5 := emitVarDeclaration s4 paramVarId paramType
        let s6 := emitInstruction s5 Opcode.MOV
          [Operand.varOp paramVarId, Operand.immTy CoilType.ABIPARAM, Operand.immU16 (i : Int)]
        generateParams rest (i + 1) s6

/-- `CodeGenerator::generateFunctionDeclaration`: function symbol
(GLOBAL|FUNCTION in `.text`), label and `SYM`, then scope entry,
parameters, body, the terminal `RET` (`RET(RET_ABI, 0)` for `main`, bare
`RET` otherwise), and scope exit. -/
def generateFunctionDeclaration (fuel : Nat) (node : FunctionDeclarationNode)
    (s : CGState) : CGState :=
  let s0 := { s with currentFunction := node.name.lexeme }
  let (functionSymbol, s1) :=
    cgAddSymbol s0 node.name.lexeme (symGLOBAL ||| symFUNCTION) s0.textSectionIndex
  let s2 := emitLabel s1 node.name.lexeme
  let s3 := emitInstruction s2 Opcode.SYM [Operand.symOp functionSymbol]
  match node.body with
  | none => { s3 with currentFunction := "" }
  | some body =>
      let s4 := cgEnterScope s3
      let s5 := generateParams node.parameters 0 s4
      let s6 := generateBlock fuel body s5
      let s7 :=
        if s6.currentFunction = "main" then
          emitInstruction s6 Opcode.RET [Operand.immTy CoilType.ABIRET, Operand.immI32 0]
        else emitInstruction s6 Opcode.RET []
      let s8 := cgLeaveScope s7
      { s8 with currentFunction := "" }

/-- `CodeGenerator::initialize`: fresh COIL object with the `.text`,
`.data`, `.bss` symbols and sections, reset variable tracking and label
counter, and the leading `PROC(CPU)` instruction. -/
def cgInitialize (errs : List ErrEntry) : CGState :=
  let o0 : CoilObject := ⟨[], [], []⟩
  let (textSymbolIndex, o1) := o0.addSymbol ⟨".text", 5, symGLOBAL, 0, 0, 1⟩
  let (textSectionIndex, o2) := o1.addSection
    ⟨textSymbolIndex, secEXECUTABLE ||| secREADABLE, 0, 0, 0, 16, 1⟩
  let (dataSymbolIndex, o3) := o2.addSymbol ⟨".data", 5, symGLOBAL, 0, 0, 1⟩
  let (dataSectionIndex, o4) := o3.addSection
    ⟨dataSymbolIndex, secWRITABLE ||| secREADABLE ||| secINITIALIZED, 0, 0, 0, 16, 1⟩
  let (bssSymbolIndex, o5) := o4.addSymbol ⟨".bss", 4, symGLOBAL, 0, 0, 1⟩
  let (bssSectionIndex, o6) := o5.addSection
    ⟨bssSymbolIndex, secWRITABLE ||| secREADABLE ||| secUNINITIALIZED, 0, 0, 0, 16, 1⟩
  let s : CGState :=
    ⟨o6, textSectionIndex, dataSectionIndex, bssSectionIndex, [], 1, [], "", 0, errs⟩
  emitInstruction s Opcode.PROC [Operand.immU8 1]

/-- `CodeGenerator::generateProgram`. -/
def generateProgram (fuel : Nat) (node : ProgramNode) (s : CGState) : CGState :=
  node.declarations.foldl
    (fun acc d =>
      match d with
      | DeclNode.funcDecl f => generateFunctionDeclaration fuel f acc
      | DeclNode.varDecl ty name init => generateVariableDeclaration true ty name init acc)
    s

/-- `CodeGenerator::generate` on a program root, continuing from the
diagnostics accumulated by the earlier phases (the driver threads one
`ErrorHandler` through every phase). -/
def cgGenerate (prog : ProgramNode) (errs : List ErrEntry) : CGState :=
  generateProgram 1000 prog (cgInitialize errs)

/-- The driver's phase sequencing from `main.cpp`, starting at the
validated AST: run semantic analysis, stop with exit code 1 on errors,
otherwise run code generation and stop with exit code 1 on errors; exit
code 0 otherwise. -/
def driverExitFromAst (prog : ProgramNode) : Nat :=
  let sem := semAnalyze prog
  if hasErrors sem.errs then 1
  else
    let cg := cgGenerate prog sem.errs
    if hasErrors cg.errs then 1 else 0

/-! ## Concrete inputs and specification-side predicates for the claims -/

/-- The surface type `int` at a fixed position, for the concrete programs. -/
def intTypeNode : TypeNode := ⟨⟨TokenType.KW_INT, "int", "test.c", 1, 1⟩, false, false, false, 0⟩

/-- The AST of `int main() { break; return 0; }`: a `break` that is not
lexically inside any loop (the `return 0;` keeps the missing-return check
quiet so that the break statement is the only candidate diagnostic). -/
def breakProgram : ProgramNode :=
  ⟨[DeclNode.funcDecl
      ⟨intTypeNode, ⟨TokenType.IDENTIFIER, "main", "test.c", 1, 5⟩, [],
        some [StatementNode.breakNode,
              StatementNode.returnNode
                (some (ExpressionNode.literal
                  ⟨TokenType.INTEGER_LITERAL, "0", "test.c", 1, 27⟩))]⟩]⟩

/-- The AST of `int main() { int x; { int x; } x; return 0; }`: an inner
declaration shadows the outer `x`, and the outer `x` is used after the
inner block. -/
def shadowProgram : ProgramNode :=
  ⟨[DeclNode.funcDecl
      ⟨intTypeNode, ⟨TokenType.IDENTIFIER, "main", "test.c", 1, 5⟩, [],
        some [StatementNode.variableDeclaration intTypeNode
                ⟨TokenType.IDENTIFIER, "x", "test.c", 1, 18⟩ none,
              StatementNode.block
                [StatementNode.variableDeclaration intTypeNode
                  ⟨TokenType.IDENTIFIER, "x", "test.c", 1, 27⟩ none],
              StatementNode.expressionStatement
                (ExpressionNode.var ⟨TokenType.IDENTIFIER, "x", "test.c", 1, 33⟩),
              StatementNode.returnNode
                (some (ExpressionNode.literal
                  ⟨TokenType.INTEGER_LITERAL, "0", "test.c", 1, 43⟩))]⟩]⟩

/-- The binary operators `CodeGenerator::generateBinary` leaves to its
default branch: comparisons, bitwise operators, and logical operators. -/
def notImplementedBinaryOps : List TokenType :=
  [TokenType.OP_LESS, TokenType.OP_LESS_EQUALS,
   TokenType.OP_GREATER, TokenType.OP_GREATER_EQUALS,
   TokenType.OP_EQUALS_EQUALS, TokenType.OP_NOT_EQUALS,
   TokenType.OP_AMPERSAND, TokenType.OP_PIPE, TokenType.OP_CARET,
   TokenType.OP_SHL, TokenType.OP_SHR,
   TokenType.OP_LOGICAL_AND, TokenType.OP_LOGICAL_OR]

/-- The canonical byte size each `TypeInfo::create*` constructor assigns to
its kind (void 0, char 1, int 4, float 4, double 8, pointer 8). -/
def canonicalSize : TypeKind → Int
  | TypeKind.VOID => 0
  | TypeKind.CHAR => 1
  | TypeKind.INT => 4
  | TypeKind.FLOAT => 4
  | TypeKind.DOUBLE => 8
  | TypeKind.STRUCT => 0
  | TypeKind.ARRAY => 0
  | TypeKind.POINTER => 8
  | TypeKind.FUNCTION => 0

/-- Specification predicate: the head of the list is a digit. -/
def headIsDigit (l : List Char) : Bool :=
  match l with
  | d :: _ => d.isDigit
  | [] => false

/-- Specification predicate (claim wording): the character list contains a
decimal point immediately followed by a digit. -/
def containsDotDigit : List Char → Bool
  | [] => false
  | c :: rest => (c = '.' && headIsDigit rest) || containsDotDigit rest

/-- Specification predicate (claim wording): the character list contains an
exponent marker `e`/`E`. -/
def containsExpChar (l : List Char) : Bool :=
  l.any (fun c => c = 'e' || c = 'E')

/-- Specification predicate (claim wording): the character list ends with
an `f`/`F` suffix. -/
def endsWithF (l : List Char) : Bool :=
  match l.getLast? with
  | some c => c = 'f' || c = 'F'
  | none => false

/-- The token produced by `Lexer::number` on the literal `1.5f` (used as a
concrete instance of the numeric-literal classification theorem). -/
def tC9 : Token :=
  ⟨TokenType.FLOAT_LITERAL, String.mk ['1', '.', '5', 'f'], "test.c", 1, 1⟩

/-! ## Helper lemmas -/

theorem frameFind_frameSet_self (f : Frame) (name : String) (v : SymbolInfo) :
    frameFind (frameSet f name v) name = some v := by
  induction f with
  | nil => simp [frameSet, frameFind]
  | cons p rest ih =>
      by_cases h : p.1 = name
      · simp [frameSet, h, frameFind]
      · simp [frameSet, h, frameFind, ih]

theorem getD_set_self (l : List Frame) (i : Nat) (f : Frame) (h : i < l.length) :
    (l.set i f).getD i [] = f := by
  induction l generalizing i with
  | nil => simp at h
  | cons a rest ih =>
      cases i with
      | zero => simp
      | succ n =>
          simp only [List.set, List.getD, List.getElem?_cons_succ, List.length_cons] at *
          exact ih n (by omega)

theorem getD_set_ne (l : List Frame) (i j : Nat) (f : Frame) (h : i ≠ j) :
    (l.set i f).getD j [] = l.getD j [] := by
  induction l generalizing i j with
  | nil => simp
  | cons a rest ih =>
      cases i with
      | zero =>
          cases j with
          | zero => exact absurd rfl h
          | succ m => simp
      | succ n =>
          cases j with
          | zero => simp
          | succ m =>
              simp only [List.set, List.getD, List.getElem?_cons_succ]
              exact ih n m (by omega)

/-! ## Claim theorems -/

/-- Claim C1 (status: code bug).  The claim states that `a OP= b` parses to
a binary `=` whose left operand is the parsed subtree for `a`; the C++
code's own comment says the left operand "will be cloned in codegen since
it's used twice".  In fact `std::move(expr)` is evaluated twice: after the
inner `a OP b` node takes the subtree, the outer `=` node receives a
moved-from (null) `unique_ptr`.  Evaluating the embedded parser on the
token stream of `x += 1` exhibits the null left child. -/
theorem compound_assignment_left_child_null :
    assignment 100 ((tokenize "input.c" "x += 1").1) [] =
      PRes.ok
        (ExpressionNode.binary ExpressionNode.null
          ⟨TokenType.OP_EQUALS, "=", "input.c", 1, 3⟩
          (ExpressionNode.binary
            (ExpressionNode.var ⟨TokenType.IDENTIFIER, "x", "input.c", 1, 1⟩)
            ⟨TokenType.OP_PLUS, "+", "input.c", 1, 3⟩
            (ExpressionNode.literal ⟨TokenType.INTEGER_LITERAL, "1", "input.c", 1, 6⟩)))
        [⟨TokenType.END_OF_FILE, "", "input.c", 1, 7⟩] [] := by
  rfl

/-- Claim C3, counterexample.  For the program `int main() { break; return
0; }`, whose `break` is not lexically inside any loop, the semantic phase
records nothing, the code generator records only the warning-severity
"Break statement not fully implemented", and the driver exits 0 — refuting
the claim that at least one error-severity diagnostic is recorded and the
driver exits nonzero. -/
theorem break_outside_loop_no_error_cx :
    (semAnalyze breakProgram).errs = [] ∧
    (cgGenerate breakProgram (semAnalyze breakProgram).errs).errs =
      [⟨ErrorLevel.WARNING, "Break statement not fully implemented", "", 0, 0⟩] ∧
    driverExitFromAst breakProgram = 0 := by
  exact ⟨rfl, rfl, rfl⟩

/-- Claim C3, as amended: a `break` or `continue` outside any loop is not
rejected; the semantic analyzer's visitors are no-ops, the code generator
records exactly one warning-severity diagnostic ("Break statement not
fully implemented" / "Continue statement not fully implemented") and emits
nothing, and a program whose only questionable construct is such a
statement compiles with exit code 0. -/
theorem break_continue_warning_only :
    (∀ s : CGState, generateBreakStatement s =
      { s with errs := s.errs ++
          [⟨ErrorLevel.WARNING, "Break statement not fully implemented", "", 0, 0⟩] }) ∧
    (∀ s : CGState, generateContinueStatement s =
      { s with errs := s.errs ++
          [⟨ErrorLevel.WARNING, "Continue statement not fully implemented", "", 0, 0⟩] }) ∧
    (∀ st : SemState, visitBreakStatement st = st ∧ visitContinueStatement st = st) ∧
    driverExitFromAst breakProgram = 0 := by
  exact ⟨fun s => rfl, fun s => rfl, fun st => ⟨rfl, rfl⟩, rfl⟩

/-- Claim C3, amended-claim witness at a concrete state. -/
theorem break_continue_warning_only_witness :
    generateBreakStatement (cgInitialize []) =
      { cgInitialize [] with errs :=
          [⟨ErrorLevel.WARNING, "Break statement not fully implemented", "", 0, 0⟩] } :=
  break_continue_warning_only.1 (cgInitialize [])

/-- Claim C4, counterexample.  Enter a scope, bind `x`, leave, and enter
again: the frame that has just become the top frame again still contains
the stale binding of `x` from its previous period as top — refuting the
claimed invariant that a re-topped frame holds no old bindings. -/
theorem enterScope_stale_frame_cx :
    (((((SymbolTable.new.enterScope).addVariable "x"
        createInt).leaveScope).enterScope).currentScope = 1) ∧
    ((frameFind
        (((((SymbolTable.new.enterScope).addVariable "x"
          createInt).leaveScope).enterScope).scopes.getD 1 []) "x").isSome = true) := by
  exact ⟨rfl, rfl⟩

/-- Claim C4, as amended: `enterScope` yields an empty current frame only
when it pushes a brand-new frame (the scope index reaches the end of the
stored frame vector); when an existing frame becomes the top frame again
it retains all bindings from its previous period, because `leaveScope`
only decrements the index and never pops or clears frames. -/
theorem enterScope_frame_reuse :
    (∀ st : SymbolTable, st.scopes.length ≤ st.currentScope + 1 →
      (st.enterScope.scopes.getD st.enterScope.currentScope []) = []) ∧
    (∀ st : SymbolTable, st.currentScope + 1 < st.scopes.length →
      st.enterScope.scopes = st.scopes ∧
      st.enterScope.currentScope = st.currentScope + 1) ∧
    (∀ st : SymbolTable, st.leaveScope.scopes = st.scopes) := by
  refine ⟨?_, ?_, ?_⟩
  · intro st h
    have h' : st.currentScope + 1 ≥ st.scopes.length := h
    simp only [SymbolTable.enterScope]
    rw [if_pos h']
    show (st.scopes ++ [[]]).getD (st.currentScope + 1) [] = []
    rw [List.getD_eq_getElem?_getD, List.getElem?_append_right h]
    rcases Nat.lt_or_ge (st.currentScope + 1 - st.scopes.length) 1 with h1 | h1
    · have hz : st.currentScope + 1 - st.scopes.length = 0 := by omega
      simp [hz]
    · have hs : ∃ n, st.currentScope + 1 - st.scopes.length = n + 1 :=
        ⟨_, (Nat.succ_pred_eq_of_pos h1).symm⟩
      rcases hs with ⟨n, hn⟩
      simp [hn]
  · intro st h
    have h' : ¬ (st.currentScope + 1 ≥ st.scopes.length) := by omega
    simp only [SymbolTable.enterScope]
    rw [if_neg h']
    exact ⟨rfl, rfl⟩
  · intro st
    unfold SymbolTable.leaveScope
    split <;> rfl

/-- Claim C4, amended-claim witness at concrete tables: a fresh table
pushes an empty frame; a table with a spare stored frame reuses it without
clearing; leaving preserves the stored frames. -/
theorem enterScope_frame_reuse_witness :
    ((SymbolTable.new.enterScope).scopes.getD (SymbolTable.new.enterScope).currentScope [] = []) ∧
    ((⟨[[], [("x", ⟨SymKind.VARIABLE, createInt, "x", 1⟩)]], 0⟩ :
        SymbolTable).enterScope.scopes =
      [[], [("x", ⟨SymKind.VARIABLE, createInt, "x", 1⟩)]]) ∧
    ((⟨[[]], 0⟩ : SymbolTable).leaveScope.scopes = [[]]) := by
  refine ⟨?_, ?_, ?_⟩
  · exact enterScope_frame_reuse.1 SymbolTable.new (by decide)
  · exact (enterScope_frame_reuse.2.1 ⟨[[], [("x", ⟨SymKind.VARIABLE, createInt, "x", 1⟩)]], 0⟩
      (by simp)).1
  · exact enterScope_frame_reuse.2.2 ⟨[[]], 0⟩

/-- Claim C5 (confirmed).  For `int main() { int x; { int x; } x; return 0; }`
the semantic analyzer accepts the shadowing (no diagnostics at all), but
the code generator's flat map loses the outer binding when the inner scope
exits — the inner declaration overwrote it and the scope-exit erasure
removed the name entirely — so the later use of the outer `x` fails with a
code-generation "Undefined variable: x" error. -/
theorem shadowing_codegen_undefined_variable :
    (semAnalyze shadowProgram).errs = [] ∧
    (cgGenerate shadowProgram (semAnalyze shadowProgram).errs).errs =
      [⟨ErrorLevel.ERROR, "Undefined variable: x", "", 1, 33⟩] := by
  exact ⟨rfl, rfl⟩

/-- Claim C7 (confirmed).  For every `Variable` expression whose identifier
is not bound in any enclosing scope, `visitVariable` appends exactly one
error-severity diagnostic "Undefined variable \x27name\x27" at the
identifier's line and column, and the computed type is void. -/
theorem visitVariable_undefined :
    ∀ (name : Token) (st : SemState),
      st.symbolTable.lookup name.lexeme = none →
      visitVariable name st =
        (createVoid,
          { st with errs := st.errs ++
              [⟨ErrorLevel.ERROR, "Undefined variable \x27" ++ name.lexeme ++ "\x27", "",
                name.line, name.column⟩] }) := by
  intro name st h
  simp [visitVariable, h, semErr, errError]

/-- Claim C7, witness: the lookup of `x` in a fresh table fails and the
single diagnostic is produced at the identifier's position. -/
theorem visitVariable_undefined_witness :
    visitVariable ⟨TokenType.IDENTIFIER, "x", "test.c", 3, 9⟩
        ⟨SymbolTable.new, none, false, []⟩ =
      (createVoid,
        ⟨SymbolTable.new, none, false,
          [⟨ErrorLevel.ERROR, "Undefined variable \x27x\x27", "", 3, 9⟩]⟩) :=
  visitVariable_undefined ⟨TokenType.IDENTIFIER, "x", "test.c", 3, 9⟩
    ⟨SymbolTable.new, none, false, []⟩ rfl

/-- Claim C8 (confirmed).  `addFunction` always registers the function in
the bottom (level-0, global) frame with scope level 0, regardless of the
scope depth currently open: the current scope index is unchanged, the new
binding sits in frame 0 with `scopeLevel = 0`, and every other frame is
untouched. -/
theorem addFunction_global_frame :
    ∀ (st : SymbolTable) (name : String) (ty : TypeInfo),
      0 < st.scopes.length →
      (st.addFunction name ty).currentScope = st.currentScope ∧
      frameFind ((st.addFunction name ty).scopes.getD 0 []) name =
        some ⟨SymKind.FUNCTION, ty, name, 0⟩ ∧
      ∀ i, i ≠ 0 → (st.addFunction name ty).scopes.getD i [] = st.scopes.getD i [] := by
  intro st name ty h
  refine ⟨rfl, ?_, ?_⟩
  · show frameFind ((st.scopes.set 0 (frameSet (st.scopes.getD 0 []) name
        ⟨SymKind.FUNCTION, ty, name, 0⟩)).getD 0 []) name = _
    rw [getD_set_self _ _ _ h]
    exact frameFind_frameSet_self _ _ _
  · intro i hi
    exact getD_set_ne _ 0 i _ (fun e => hi e.symm)

/-- Claim C8, witness: registering `f` while two nested scopes are open
(current scope 2) still lands in frame 0 at level 0 and leaves the other
frames alone. -/
theorem addFunction_global_frame_witness :
    ((⟨[[], [], []], 2⟩ : SymbolTable).addFunction "f" createInt).currentScope = 2 ∧
    frameFind (((⟨[[], [], []], 2⟩ : SymbolTable).addFunction "f"
        createInt).scopes.getD 0 []) "f" = some ⟨SymKind.FUNCTION, createInt, "f", 0⟩ ∧
    ∀ i, i ≠ 0 →
      ((⟨[[], [], []], 2⟩ : SymbolTable).addFunction "f" createInt).scopes.getD i [] =
        (([[], [], []] : List Frame)).getD i [] :=
  addFunction_global_frame ⟨[[], [], []], 2⟩ "f" createInt (by decide)

/-- Claim C2 (confirmed).  For every `Binary` node whose operator is a
comparison, bitwise, or logical operator, `generateBinary` evaluates the
two operands, consumes a fresh var id, and then hits its default branch:
no instruction is emitted for the operation (the COIL object is exactly
the one left by the operand evaluations), the error-severity diagnostic
"Binary operator not implemented: <lexeme>" is recorded at the operator's
position, and var id 0 is returned. -/
theorem binary_not_implemented_ops :
    ∀ (left right : ExpressionNode) (op : Token) (s s1 s2 : CGState) (lv rv : Nat),
      op.type ∈ notImplementedBinaryOps →
      generateExpression left s = (lv, s1) →
      generateExpression right s1 = (rv, s2) →
      generateExpression (ExpressionNode.binary left op right) s =
        (0, { s2 with
                nextVarId := s2.nextVarId + 1,
                errs := errError s2.errs op.line op.column
                  ("Binary operator not implemented: " ++ op.lexeme) }) := by
  intro left right op s s1 s2 lv rv hmem h1 h2
  have hty : op.type = TokenType.OP_LESS ∨ op.type = TokenType.OP_LESS_EQUALS ∨
      op.type = TokenType.OP_GREATER ∨ op.type = TokenType.OP_GREATER_EQUALS ∨
      op.type = TokenType.OP_EQUALS_EQUALS ∨ op.type = TokenType.OP_NOT_EQUALS ∨
      op.type = TokenType.OP_AMPERSAND ∨ op.type = TokenType.OP_PIPE ∨
      op.type = TokenType.OP_CARET ∨ op.type = TokenType.OP_SHL ∨
      op.type = TokenType.OP_SHR ∨ op.type = TokenType.OP_LOGICAL_AND ∨
      op.type = TokenType.OP_LOGICAL_OR := by
    simpa [notImplementedBinaryOps] using hmem
  simp only [generateExpression, h1, h2, getNextVarId]
  rcases hty with h | h | h | h | h | h | h | h | h | h | h | h | h <;>
    simp [h, cgErr]

/-- Claim C2, witness: `null < null` in the freshly initialized generator
state (each null operand reports "Null expression" and yields id 0; the
`<` then only records its not-implemented error and returns 0). -/
theorem binary_not_implemented_ops_witness :
    generateExpression
        (ExpressionNode.binary ExpressionNode.null ⟨TokenType.OP_LESS, "<", "test.c", 2, 5⟩
          ExpressionNode.null)
        (cgInitialize []) =
      (0, { cgErr (cgErr (cgInitialize []) 0 0 "Null expression") 0 0 "Null expression" with
              nextVarId := (cgErr (cgErr (cgInitialize []) 0 0 "Null expression") 0 0
                "Null expression").nextVarId + 1,
              errs := errError (cgErr (cgErr (cgInitialize []) 0 0 "Null expression") 0 0
                "Null expression").errs 2 5 "Binary operator not implemented: <" }) :=
  binary_not_implemented_ops ExpressionNode.null ExpressionNode.null
    ⟨TokenType.OP_LESS, "<", "test.c", 2, 5⟩ (cgInitialize [])
    (cgErr (cgInitialize []) 0 0 "Null expression")
    (cgErr (cgErr (cgInitialize []) 0 0 "Null expression") 0 0 "Null expression")
    0 0 (by decide) rfl rfl

/-- Claim C6 (confirmed).  For numeric `TypeInfo` operands carrying the
byte sizes their constructors assign, `getCommonType` follows the claimed
usual-arithmetic-conversion rules: double dominates, then float, and two
integer operands pick the larger byte size with ties resolved to the left
operand. -/
theorem getCommonType_follows_spec :
    ∀ (a b : TypeInfo),
      a.isNumeric = true → b.isNumeric = true →
      a.size = canonicalSize a.kind → b.size = canonicalSize b.kind →
      ((a.kind = TypeKind.DOUBLE ∨ b.kind = TypeKind.DOUBLE) →
        (getCommonType a b).kind = TypeKind.DOUBLE) ∧
      ((a.kind ≠ TypeKind.DOUBLE ∧ b.kind ≠ TypeKind.DOUBLE ∧
        (a.kind = TypeKind.FLOAT ∨ b.kind = TypeKind.FLOAT)) →
        (getCommonType a b).kind = TypeKind.FLOAT) ∧
      ((a.isInteger = true ∧ b.isInteger = true) →
        getCommonType a b = if b.size ≤ a.size then a else b) := by
  intro a b hna hnb hsa hsb
  cases a with | mk ka ca va sa ba pa =>
  cases b with | mk kb cb vb sb bb pb =>
  simp only [TypeInfo.kind, TypeInfo.size] at hsa hsb ⊢
  subst hsa hsb
  cases ka <;> cases kb <;>
    simp_all [getCommonType, TypeInfo.isNumeric, TypeInfo.isInteger, TypeInfo.kind,
      TypeInfo.size, createDouble, createFloat, canonicalSize]

/-- Claim C6, witness: `int` with `char` picks the wider `int`; `float`
with `int` yields a float kind; `int` with `double` yields a double
kind. -/
theorem getCommonType_follows_spec_witness :
    (getCommonType createInt createChar = createInt) ∧
    ((getCommonType createFloat createInt).kind = TypeKind.FLOAT) ∧
    ((getCommonType createInt createDouble).kind = TypeKind.DOUBLE) := by
  have h1 := getCommonType_follows_spec createInt createChar rfl rfl rfl rfl
  have h2 := getCommonType_follows_spec createFloat createInt rfl rfl rfl rfl
  have h3 := getCommonType_follows_spec createInt createDouble rfl rfl rfl rfl
  refine ⟨?_, h2.2.1 ⟨by decide, by decide, Or.inl rfl⟩, h3.1 (Or.inr rfl)⟩
  have h4 := h1.2.2 ⟨rfl, rfl⟩
  simpa [createInt, createChar, TypeInfo.size] using h4

/-! ## Lexer token-kind lemmas (for claims C9 and C10) -/

theorem keywordLookup_ne_eof {s : String} {k : TokenType} (h : keywordLookup s = some k) :
    k ≠ TokenType.END_OF_FILE := by
  unfold keywordLookup at h
  rcases hf : keywordList.find? (fun p => p.1 = s) with _ | p
  · rw [hf] at h
    exact absurd h (by simp)
  · rw [hf] at h
    have hk : p.2 = k := by simpa using h
    have hp : p ∈ keywordList := List.mem_of_find?_eq_some hf
    have hall : ∀ q ∈ keywordList, q.2 ≠ TokenType.END_OF_FILE := by decide
    exact hk ▸ hall p hp

theorem identifier_tok_ne_eof (fname : String) (src : List Char) (line col : Int) :
    (identifier fname src line col).1.type ≠ TokenType.END_OF_FILE := by
  unfold identifier
  rcases hk : keywordLookup (String.mk (src.takeWhile fun c => c.isAlphanum || c = '_')) with _ | k
  · simp [hk, makeToken]
  · simp only [hk, makeToken]
    exact keywordLookup_ne_eof hk

theorem number_tok_kinds (fname : String) (src : List Char) (line col : Int)
    (errs : List ErrEntry) (t : Token)
    (h : (number fname src line col errs).tok? = some t) :
    t.type = TokenType.FLOAT_LITERAL ∨ t.type = TokenType.INTEGER_LITERAL := by
  unfold number at h
  dsimp only [] at h
  rcases hfr : numFrac (src.dropWhile Char.isDigit) with ⟨frac, r2, fracTaken⟩
  rw [hfr] at h
  dsimp only [] at h
  rcases hex : numExp r2 with r3 | ⟨ec, r3⟩ | ⟨n, r3⟩
  · rw [hex] at h
    dsimp only [] at h
    rcases hsf : numSuffix r3 with ⟨sfx, r4, isF⟩
    rw [hsf] at h
    dsimp only [] at h
    rcases h2 : (fracTaken || isF) with _ | _ <;> rw [h2] at h <;>
      simp only [makeToken, Option.some.injEq, Bool.false_eq_true, if_false, if_true,
        ite_true, ite_false] at h <;>
      rw [← h] <;> simp
  · rw [hex] at h
    dsimp only [] at h
    rcases hsf : numSuffix r3 with ⟨sfx, r4, isF⟩
    rw [hsf] at h
    dsimp only [] at h
    simp only [makeToken, Option.some.injEq] at h
    rw [← h]
    simp
  · rw [hex] at h
    dsimp only [] at h
    simp at h

theorem stringLit_tok_type (fname : String) (src : List Char) (line col : Int)
    (errs : List ErrEntry) (t : Token)
    (h : (stringLit fname src line col errs).tok? = some t) :
    t.type = TokenType.STRING_LITERAL := by
  unfold stringLit at h
  dsimp only [] at h
  rcases hb : stringBody src line col with ⟨cs, rest, l2, c2, st⟩
  rw [hb] at h
  cases st <;> simp_all [makeToken] <;> simp [← h]

theorem charClose_tok_type (fname : String) (content src : List Char) (line col : Int)
    (startLine startCol : Int) (errs : List ErrEntry) (t : Token)
    (h : (charClose fname content src line col startLine startCol errs).tok? = some t) :
    t.type = TokenType.CHAR_LITERAL := by
  unfold charClose at h
  dsimp only [] at h
  rcases hs : (if src.head? ≠ some '\'' then src.dropWhile (fun c => c ≠ '\'') else src) with
    _ | ⟨q, rest2⟩
  · rw [hs] at h
    simp at h
  · rw [hs] at h
    simp only [] at h
    simp_all [makeToken]
    simp [← h]

theorem character_tok_type (fname : String) (src : List Char) (line col : Int)
    (errs : List ErrEntry) (t : Token)
    (h : (character fname src line col errs).tok? = some t) :
    t.type = TokenType.CHAR_LITERAL := by
  unfold character at h
  dsimp only [] at h
  rcases src with _ | ⟨c, rest⟩
  · simp at h
  · dsimp only [] at h
    by_cases hc : c = '\\'
    · rw [if_pos hc] at h
      rcases rest with _ | ⟨d, rest2⟩
      · simp at h
      · exact charClose_tok_type _ _ _ _ _ _ _ _ _ h
    · rw [if_neg hc] at h
      by_cases hq : c = '\''
      · rw [if_pos hq] at h; simp at h
      · rw [if_neg hq] at h
        exact charClose_tok_type _ _ _ _ _ _ _ _ _ h

theorem punctOut_tok_type (fname : String) (T : TokenType) (cs rest : List Char)
    (line col : Int) (errs : List ErrEntry) (t : Token)
    (h : (punctOut fname T cs rest line col errs).tok? = some t) :
    t.type = T := by
  simp only [punctOut, makeToken] at h
  cases h
  rfl

set_option maxHeartbeats 2000000 in
theorem scanPunct_no_eof (fname : String) (src : List Char) (line col : Int)
    (errs : List ErrEntry) (t : Token)
    (h : (scanPunct fname src line col errs).tok? = some t) :
    t.type ≠ TokenType.END_OF_FILE := by
  unfold scanPunct at h
  split at h <;>
    first
      | (rw [punctOut_tok_type _ _ _ _ _ _ _ _ h]; decide)
      | (rw [stringLit_tok_type _ _ _ _ _ _ h]; decide)
      | (rw [character_tok_type _ _ _ _ _ _ h]; decide)
      | simp_all

theorem scanToken_no_eof (fname : String) (src : List Char) (line col : Int)
    (errs : List ErrEntry) (t : Token)
    (h : (scanToken fname src line col errs).tok? = some t) :
    t.type ≠ TokenType.END_OF_FILE := by
  unfold scanToken at h
  dsimp only [] at h
  rcases hsw : skipWhitespace (src.length + 1) src line col errs with ⟨s1, l1, c1, e1⟩
  rw [hsw] at h
  dsimp only [] at h
  rcases s1 with _ | ⟨c, rest⟩
  · simp at h
  · dsimp only [] at h
    by_cases ha : (c.isAlpha ∨ c = '_')
    · rw [if_pos ha] at h
      simp only at h
      cases h
      exact identifier_tok_ne_eof fname (c :: rest) l1 c1
    · rw [if_neg ha] at h
      by_cases hd : c.isDigit = true
      · rw [if_pos hd] at h
        rcases number_tok_kinds fname (c :: rest) l1 c1 e1 t h with h2 | h2 <;>
          rw [h2] <;> decide
      · rw [if_neg hd] at h
        exact scanPunct_no_eof fname (c :: rest) l1 c1 e1 t h

theorem scanTokens_no_eof (fname : String) :
    ∀ (fuel : Nat) (src : List Char) (line col : Int) (errs : List ErrEntry),
      ∀ t ∈ (scanTokens fname fuel src line col errs).1,
        t.type ≠ TokenType.END_OF_FILE := by
  intro fuel
  induction fuel with
  | zero => intro src line col errs t ht; simp [scanTokens] at ht
  | succ n ih =>
      intro src line col errs t ht
      rcases src with _ | ⟨c, rest⟩
      · simp [scanTokens] at ht
      · simp only [scanTokens] at ht
        rcases hout : scanToken fname (c :: rest) line col errs with ⟨tok?, r, l, co, e⟩
        rw [hout] at ht
        dsimp only [] at ht
        rcases hrec : scanTokens fname n r l co e with ⟨toks, lf, cf, ef⟩
        rw [hrec] at ht
        simp only [List.mem_append] at ht
        rcases ht with ht | ht
        · rcases tok? with _ | tk
          · simp at ht
          · simp only [Option.toList_some, List.mem_singleton] at ht
            subst ht
            have : (scanToken fname (c :: rest) line col errs).tok? = some t := by
              rw [hout]
            exact scanToken_no_eof fname (c :: rest) line col errs t this
        · have := ih r l co e t
          rw [hrec] at this
          exact this ht

/-- Claim C10.  `Lexer::tokenize` always returns a token stream that ends
with exactly one `END_OF_FILE` token: the stream splits as `pre ++ [eof]`
where the final token has type `END_OF_FILE` and no token of `pre` has
type `END_OF_FILE`. -/
theorem tokenize_single_trailing_eof :
    ∀ (fname source : String),
      ∃ pre lastTok, (tokenize fname source).1 = pre ++ [lastTok] ∧
        lastTok.type = TokenType.END_OF_FILE ∧
        ∀ t ∈ pre, t.type ≠ TokenType.END_OF_FILE := by
  intro fname source
  unfold tokenize
  rcases hscan : scanTokens fname (source.length + 1) source.data 1 1 [] with ⟨toks, l, c, errs⟩
  refine ⟨toks, ⟨TokenType.END_OF_FILE, "", fname, l, c⟩, by simp, rfl, ?_⟩
  intro t ht
  have := scanTokens_no_eof fname (source.length + 1) source.data 1 1 [] t
  rw [hscan] at this
  exact this ht

/-! ## Numeric-literal classification (claim C9) -/

theorem cdd_cons (c : Char) (l : List Char) :
    containsDotDigit (c :: l) = (decide (c = '.') && headIsDigit l || containsDotDigit l) := rfl

theorem isDigit_ne_dot {c : Char} (h : c.isDigit = true) : c ≠ '.' := by
  intro hc; subst hc; exact absurd h (by decide)

theorem isDigit_ne_e {c : Char} (h : c.isDigit = true) : c ≠ 'e' ∧ c ≠ 'E' := by
  constructor <;> intro hc <;> subst hc <;> exact absurd h (by decide)

theorem isDigit_ne_f {c : Char} (h : c.isDigit = true) : c ≠ 'f' ∧ c ≠ 'F' := by
  constructor <;> intro hc <;> subst hc <;> exact absurd h (by decide)

theorem cdd_eq_false {l : List Char} (h : ∀ c ∈ l, c ≠ '.') :
    containsDotDigit l = false := by
  induction l with
  | nil => rfl
  | cons c rest ih =>
      rw [cdd_cons]
      have hc : c ≠ '.' := h c (List.mem_cons_self c rest)
      rw [ih (fun d hd => h d (List.mem_cons_of_mem c hd))]
      simp [hc]

theorem cdd_append_dot_digit (l : List Char) {d : Char} (m : List Char)
    (hd : d.isDigit = true) : containsDotDigit (l ++ '.' :: d :: m) = true := by
  induction l with
  | nil => simp [cdd_cons, headIsDigit, hd]
  | cons c rest ih => rw [List.cons_append, cdd_cons, ih, Bool.or_true]

theorem ce_append (l m : List Char) :
    containsExpChar (l ++ m) = (containsExpChar l || containsExpChar m) := by
  simp [containsExpChar, List.any_append]

theorem ce_eq_false {l : List Char} (h : ∀ c ∈ l, c ≠ 'e' ∧ c ≠ 'E') :
    containsExpChar l = false := by
  simp only [containsExpChar, List.any_eq_false]
  intro c hc
  rcases h c hc with ⟨h1, h2⟩
  simp [h1, h2]

theorem getLastQ_mem {l : List Char} {c : Char} (h : l.getLast? = some c) : c ∈ l := by
  have hm : c ∈ l.getLast? := Option.mem_def.mpr h
  rcases List.mem_getLast?_eq_getLast hm with ⟨hne, heq⟩
  exact heq ▸ List.getLast_mem hne

theorem ew_append {m : List Char} (l : List Char) (h : m ≠ []) :
    endsWithF (l ++ m) = endsWithF m := by
  simp only [endsWithF]
  rw [List.getLast?_append_of_ne_nil l h]

theorem ew_eq_false {l : List Char} (h : ∀ c ∈ l, c ≠ 'f' ∧ c ≠ 'F') :
    endsWithF l = false := by
  simp only [endsWithF]
  rcases hg : l.getLast? with _ | c
  · rfl
  · rcases h c (getLastQ_mem hg) with ⟨h1, h2⟩
    simp [h1, h2]

theorem lexeme_preds (ds frac ec sfx : List Char)
    (hds : ∀ c ∈ ds, c.isDigit = true)
    (hfrac : frac = [] ∨ ∃ fs, frac = '.' :: fs ∧ fs ≠ [] ∧ ∀ c ∈ fs, c.isDigit = true)
    (hec : ec = [] ∨ ∃ e sgn es, ec = e :: sgn ++ es ∧ (e = 'e' ∨ e = 'E') ∧
      (sgn = [] ∨ sgn = ['+'] ∨ sgn = ['-']) ∧ es ≠ [] ∧ ∀ c ∈ es, c.isDigit = true)
    (hsfx : sfx = [] ∨ sfx = ['f'] ∨ sfx = ['F'] ∨
      (sfx ≠ [] ∧ ∀ c ∈ sfx, c = 'l' ∨ c = 'L' ∨ c = 'u' ∨ c = 'U')) :
    (containsDotDigit (ds ++ frac ++ ec ++ sfx) = true ↔ frac ≠ []) ∧
    (containsExpChar (ds ++ frac ++ ec ++ sfx) = true ↔ ec ≠ []) ∧
    (endsWithF (ds ++ frac ++ ec ++ sfx) = true ↔ (sfx = ['f'] ∨ sfx = ['F'])) := by
  have hfracAll : ∀ c ∈ frac, (c = '.' ∨ c.isDigit = true) := by
    rcases hfrac with rfl | ⟨fs, rfl, _, hfsd⟩
    · simp
    · intro c hc
      rcases List.mem_cons.mp hc with rfl | hc2
      · exact Or.inl rfl
      · exact Or.inr (hfsd c hc2)
  have hecAll : ∀ c ∈ ec, c ≠ '.' ∧ c ≠ 'f' ∧ c ≠ 'F' := by
    rcases hec with rfl | ⟨e, sgn, es, rfl, he, hsgn, _, hesd⟩
    · simp
    · intro c hc
      rcases List.mem_cons.mp hc with rfl | hc2
      · rcases he with rfl | rfl <;> exact ⟨by decide, by decide, by decide⟩
      · rcases List.mem_append.mp hc2 with hc3 | hc3
        · rcases hsgn with rfl | rfl | rfl
          · simp at hc3
          · rcases List.mem_singleton.mp hc3 with rfl
            exact ⟨by decide, by decide, by decide⟩
          · rcases List.mem_singleton.mp hc3 with rfl
            exact ⟨by decide, by decide, by decide⟩
        · have hd := hesd c hc3
          exact ⟨isDigit_ne_dot hd, isDigit_ne_f hd⟩
  have hsfxAll : ∀ c ∈ sfx, c ≠ '.' ∧ c ≠ 'e' ∧ c ≠ 'E' := by
    rcases hsfx with rfl | rfl | rfl | ⟨_, hall⟩
    · simp
    · intro c hc; rcases List.mem_singleton.mp hc with rfl
      exact ⟨by decide, by decide, by decide⟩
    · intro c hc; rcases List.mem_singleton.mp hc with rfl
      exact ⟨by decide, by decide, by decide⟩
    · intro c hc
      rcases hall c hc with rfl | rfl | rfl | rfl <;>
        exact ⟨by decide, by decide, by decide⟩
  refine ⟨?_, ?_, ?_⟩
  · rcases hfrac with rfl | ⟨fs, rfl, hfs, hfsd⟩
    · have hfalse : containsDotDigit (ds ++ (ec ++ sfx)) = false := by
        apply cdd_eq_false
        intro c hc
        simp only [List.mem_append] at hc
        rcases hc with hc2 | hc2 | hc2
        · exact isDigit_ne_dot (hds c hc2)
        · exact (hecAll c hc2).1
        · exact (hsfxAll c hc2).1
      simp [hfalse]
    · rcases fs with _ | ⟨f0, fs'⟩
      · exact absurd rfl hfs
      · have hf0 : f0.isDigit = true := hfsd f0 (List.mem_cons_self f0 fs')
        have htrue : containsDotDigit (ds ++ '.' :: f0 :: (fs' ++ (ec ++ sfx))) = true :=
          cdd_append_dot_digit ds (fs' ++ (ec ++ sfx)) hf0
        simp [htrue]
  · rw [ce_append, ce_append, ce_append]
    have h1 : containsExpChar ds = false :=
      ce_eq_false (fun c hc => isDigit_ne_e (hds c hc))
    have h2 : containsExpChar frac = false := by
      apply ce_eq_false
      intro c hc
      rcases hfracAll c hc with rfl | hd
      · exact ⟨by decide, by decide⟩
      · exact isDigit_ne_e hd
    have h4 : containsExpChar sfx = false :=
      ce_eq_false (fun c hc => (hsfxAll c hc).2)
    rcases hec with rfl | ⟨e, sgn, es, rfl, he, _, _, _⟩
    · rw [h1, h2, h4, show containsExpChar ([] : List Char) = false from rfl]
      simp
    · have h3 : containsExpChar (e :: sgn ++ es) = true := by
        rcases he with rfl | rfl <;> simp [containsExpChar]
      rw [h1, h2, h3, h4]
      simp
  · rcases hsfx with rfl | rfl | rfl | ⟨hne, hall⟩
    · have hfalse : endsWithF (ds ++ (frac ++ ec)) = false := by
        apply ew_eq_false
        intro c hc
        simp only [List.mem_append] at hc
        rcases hc with hc2 | hc2 | hc2
        · exact isDigit_ne_f (hds c hc2)
        · rcases hfracAll c hc2 with rfl | hd
          · exact ⟨by decide, by decide⟩
          · exact isDigit_ne_f hd
        · exact (hecAll c hc2).2
      simp [hfalse]
    · rw [ew_append (ds ++ frac ++ ec) (by simp)]
      simp [endsWithF]
    · rw [ew_append (ds ++ frac ++ ec) (by simp)]
      simp [endsWithF]
    · rw [ew_append (ds ++ frac ++ ec) hne]
      have hfalse : endsWithF sfx = false := by
        apply ew_eq_false
        intro c hc
        rcases hall c hc with rfl | rfl | rfl | rfl <;> exact ⟨by decide, by decide⟩
      have hne1 : sfx ≠ ['f'] := by
        rintro rfl
        rcases hall 'f' (by simp) with h | h | h | h <;> exact absurd h (by decide)
      have hne2 : sfx ≠ ['F'] := by
        rintro rfl
        rcases hall 'F' (by simp) with h | h | h | h <;> exact absurd h (by decide)
      simp [hfalse, hne1, hne2]


theorem numFrac_spec (src : List Char) {frac r2 : List Char} {taken : Bool}
    (h : numFrac src = (frac, r2, taken)) :
    (taken = false ∧ frac = []) ∨
    (taken = true ∧ ∃ fs, frac = '.' :: fs ∧ fs ≠ [] ∧ ∀ c ∈ fs, c.isDigit = true) := by
  unfold numFrac at h
  rcases src with _ | ⟨c, _ | ⟨d, rest⟩⟩
  · simp only [Prod.mk.injEq] at h
    exact Or.inl ⟨h.2.2.symm, h.1.symm⟩
  · simp only [Prod.mk.injEq] at h
    exact Or.inl ⟨h.2.2.symm, h.1.symm⟩
  · dsimp only [] at h
    by_cases hcd : (c = '.' ∧ d.isDigit = true)
    · rw [if_pos hcd] at h
      simp only [Prod.mk.injEq] at h
      refine Or.inr ⟨h.2.2.symm, (d :: rest).takeWhile Char.isDigit, h.1.symm, ?_, ?_⟩
      · rw [List.takeWhile_cons_of_pos hcd.2]
        simp
      · intro x hx
        exact List.mem_takeWhile_imp hx
    · rw [if_neg hcd] at h
      simp only [Prod.mk.injEq] at h
      exact Or.inl ⟨h.2.2.symm, h.1.symm⟩

theorem numExp_spec (src : List Char) {ec r3 : List Char}
    (h : numExp src = ExpScan.ok ec r3) :
    ∃ e sgn es, ec = e :: sgn ++ es ∧ (e = 'e' ∨ e = 'E') ∧
      (sgn = [] ∨ sgn = ['+'] ∨ sgn = ['-']) ∧ es ≠ [] ∧ ∀ c ∈ es, c.isDigit = true := by
  unfold numExp at h
  rcases src with _ | ⟨c, rest⟩
  · simp at h
  · dsimp only [] at h
    by_cases hce : (c = 'e' ∨ c = 'E')
    · rw [if_pos hce] at h
      rcases rest with _ | ⟨d0, rest2⟩
      · simp at h
      · dsimp only [] at h
        by_cases hd0 : (d0 = '+' ∨ d0 = '-')
        · rw [if_pos hd0] at h
          dsimp only [] at h
          rcases rest2 with _ | ⟨d1, rest3⟩
          · simp at h
          · dsimp only [] at h
            by_cases hd1 : d1.isDigit = true
            · rw [if_pos hd1] at h
              injection h with h1 h2
              refine ⟨c, [d0], (d1 :: rest3).takeWhile Char.isDigit, h1.symm, hce, ?_, ?_, ?_⟩
              · rcases hd0 with rfl | rfl
                · exact Or.inr (Or.inl rfl)
                · exact Or.inr (Or.inr rfl)
              · rw [List.takeWhile_cons_of_pos hd1]
                simp
              · intro x hx
                exact List.mem_takeWhile_imp hx
            · rw [if_neg hd1] at h
              simp at h
        · rw [if_neg hd0] at h
          dsimp only [] at h
          by_cases hd0' : d0.isDigit = true
          · rw [if_pos hd0'] at h
            injection h with h1 h2
            refine ⟨c, [], (d0 :: rest2).takeWhile Char.isDigit, h1.symm, hce, Or.inl rfl, ?_, ?_⟩
            · rw [List.takeWhile_cons_of_pos hd0']
              simp
            · intro x hx
              exact List.mem_takeWhile_imp hx
          · rw [if_neg hd0'] at h
            simp at h
    · rw [if_neg hce] at h
      simp at h

theorem numSuffix_spec (src : List Char) {sfx r4 : List Char} {isF : Bool}
    (h : numSuffix src = (sfx, r4, isF)) :
    (sfx = [] ∧ isF = false) ∨
    ((sfx = ['f'] ∨ sfx = ['F']) ∧ isF = true) ∨
    (isF = false ∧ sfx ≠ [] ∧ ∀ c ∈ sfx, c = 'l' ∨ c = 'L' ∨ c = 'u' ∨ c = 'U') := by
  unfold numSuffix at h
  rcases src with _ | ⟨c, rest⟩
  · simp only [Prod.mk.injEq] at h
    exact Or.inl ⟨h.1.symm, h.2.2.symm⟩
  · dsimp only [] at h
    by_cases hf : (c = 'f' ∨ c = 'F')
    · rw [if_pos hf] at h
      simp only [Prod.mk.injEq] at h
      rcases hf with rfl | rfl
      · exact Or.inr (Or.inl ⟨Or.inl h.1.symm, h.2.2.symm⟩)
      · exact Or.inr (Or.inl ⟨Or.inr h.1.symm, h.2.2.symm⟩)
    · rw [if_neg hf] at h
      by_cases hl : (c = 'l' ∨ c = 'L')
      · rw [if_pos hl] at h
        have hmem1 : c = 'l' ∨ c = 'L' ∨ c = 'u' ∨ c = 'U' := by
          rcases hl with rfl | rfl
          · exact Or.inl rfl
          · exact Or.inr (Or.inl rfl)
        rcases rest with _ | ⟨d, rest2⟩
        · simp only [Prod.mk.injEq] at h
          refine Or.inr (Or.inr ⟨h.2.2.symm, ?_, ?_⟩)
          · rw [← h.1]; simp
          · intro x hx
            rw [← h.1] at hx
            rcases List.mem_singleton.mp hx with rfl
            exact hmem1
        · dsimp only [] at h
          by_cases hu : (d = 'u' ∨ d = 'U')
          · rw [if_pos hu] at h
            simp only [Prod.mk.injEq] at h
            refine Or.inr (Or.inr ⟨h.2.2.symm, ?_, ?_⟩)
            · rw [← h.1]; simp
            · intro x hx
              rw [← h.1] at hx
              rcases List.mem_cons.mp hx with rfl | hx2
              · exact hmem1
              · rcases List.mem_singleton.mp hx2 with rfl
                rcases hu with rfl | rfl
                · exact Or.inr (Or.inr (Or.inl rfl))
                · exact Or.inr (Or.inr (Or.inr rfl))
          · rw [if_neg hu] at h
            simp only [Prod.mk.injEq] at h
            refine Or.inr (Or.inr ⟨h.2.2.symm, ?_, ?_⟩)
            · rw [← h.1]; simp
            · intro x hx
              rw [← h.1] at hx
              rcases List.mem_singleton.mp hx with rfl
              exact hmem1
      · rw [if_neg hl] at h
        by_cases hu : (c = 'u' ∨ c = 'U')
        · rw [if_pos hu] at h
          have hmem1 : c = 'l' ∨ c = 'L' ∨ c = 'u' ∨ c = 'U' := by
            rcases hu with rfl | rfl
            · exact Or.inr (Or.inr (Or.inl rfl))
            · exact Or.inr (Or.inr (Or.inr rfl))
          rcases rest with _ | ⟨d, rest2⟩
          · simp only [Prod.mk.injEq] at h
            refine Or.inr (Or.inr ⟨h.2.2.symm, ?_, ?_⟩)
            · rw [← h.1]; simp
            · intro x hx
              rw [← h.1] at hx
              rcases List.mem_singleton.mp hx with rfl
              exact hmem1
          · dsimp only [] at h
            by_cases hld : (d = 'l' ∨ d = 'L')
            · rw [if_pos hld] at h
              simp only [Prod.mk.injEq] at h
              refine Or.inr (Or.inr ⟨h.2.2.symm, ?_, ?_⟩)
              · rw [← h.1]; simp
              · intro x hx
                rw [← h.1] at hx
                rcases List.mem_cons.mp hx with rfl | hx2
                · exact hmem1
                · rcases List.mem_singleton.mp hx2 with rfl
                  rcases hld with rfl | rfl
                  · exact Or.inl rfl
                  · exact Or.inr (Or.inl rfl)
            · rw [if_neg hld] at h
              simp only [Prod.mk.injEq] at h
              refine Or.inr (Or.inr ⟨h.2.2.symm, ?_, ?_⟩)
              · rw [← h.1]; simp
              · intro x hx
                rw [← h.1] at hx
                rcases List.mem_singleton.mp hx with rfl
                exact hmem1
        · rw [if_neg hu] at h
          simp only [Prod.mk.injEq] at h
          exact Or.inl ⟨h.1.symm, h.2.2.symm⟩

/-- Claim C9.  For every numeric literal that `Lexer::number` scans to a
token (i.e. without the exponent-without-digits error), the token kind is
`FLOAT_LITERAL` or `INTEGER_LITERAL`, and it is `FLOAT_LITERAL` if and only
if the produced lexeme contains a decimal point followed by a digit,
contains an exponent marker, or ends with an `f`/`F` suffix; in all other
cases (including `l`/`L`/`u`/`U` suffixes) it is `INTEGER_LITERAL`. -/
theorem number_float_iff (fname : String) (src : List Char) (line col : Int)
    (errs : List ErrEntry) (t : Token)
    (h : (number fname src line col errs).tok? = some t) :
    (t.type = TokenType.FLOAT_LITERAL ∨ t.type = TokenType.INTEGER_LITERAL) ∧
    (t.type = TokenType.FLOAT_LITERAL ↔
      (containsDotDigit t.lexeme.data = true ∨ containsExpChar t.lexeme.data = true ∨
        endsWithF t.lexeme.data = true)) := by
  refine ⟨number_tok_kinds fname src line col errs t h, ?_⟩
  have hds : ∀ c ∈ src.takeWhile Char.isDigit, c.isDigit = true :=
    fun c hc => List.mem_takeWhile_imp hc
  unfold number at h
  dsimp only [] at h
  rcases hfr : numFrac (src.dropWhile Char.isDigit) with ⟨frac, r2, fracTaken⟩
  rw [hfr] at h
  dsimp only [] at h
  have hfrS := numFrac_spec _ hfr
  have hfrac : frac = [] ∨ ∃ fs, frac = '.' :: fs ∧ fs ≠ [] ∧ ∀ c ∈ fs, c.isDigit = true := by
    rcases hfrS with ⟨_, hf⟩ | ⟨_, hf⟩
    · exact Or.inl hf
    · exact Or.inr hf
  rcases hex : numExp r2 with r3 | ⟨ec, r3⟩ | ⟨n, r3⟩
  · rw [hex] at h
    dsimp only [] at h
    rcases hsf : numSuffix r3 with ⟨sfx, r4, isF⟩
    rw [hsf] at h
    dsimp only [] at h
    have hsfS := numSuffix_spec _ hsf
    have hsfx : sfx = [] ∨ sfx = ['f'] ∨ sfx = ['F'] ∨
        (sfx ≠ [] ∧ ∀ c ∈ sfx, c = 'l' ∨ c = 'L' ∨ c = 'u' ∨ c = 'U') := by
      rcases hsfS with ⟨hs, _⟩ | ⟨hs, _⟩ | ⟨_, hs1, hs2⟩
      · exact Or.inl hs
      · rcases hs with hs | hs
        · exact Or.inr (Or.inl hs)
        · exact Or.inr (Or.inr (Or.inl hs))
      · exact Or.inr (Or.inr (Or.inr ⟨hs1, hs2⟩))
    obtain ⟨hP1, hP2, hP3⟩ :=
      lexeme_preds (src.takeWhile Char.isDigit) frac [] sfx hds hfrac (Or.inl rfl) hsfx
    simp only [List.append_nil] at hP1 hP2 hP3
    simp only [makeToken, Option.some.injEq] at h
    subst h
    dsimp only []
    rw [hP1, hP2, hP3]
    rcases hfrS with ⟨hft, hfe⟩ | ⟨hft, fs, hfe, hfne, hfd⟩
    · subst hft
      subst hfe
      rcases hsfS with ⟨hs1, hs2⟩ | ⟨hs1, hs2⟩ | ⟨hs2, hs3, hs4⟩
      · subst hs1; subst hs2
        simp
      · subst hs2
        rcases hs1 with rfl | rfl <;> simp
      · subst hs2
        have hnf : ¬(sfx = ['f'] ∨ sfx = ['F']) := by
          rintro (rfl | rfl)
          · rcases hs4 'f' (List.mem_singleton.mpr rfl) with hc | hc | hc | hc <;>
              exact absurd hc (by decide)
          · rcases hs4 'F' (List.mem_singleton.mpr rfl) with hc | hc | hc | hc <;>
              exact absurd hc (by decide)
        simp [hnf]
    · subst hft
      subst hfe
      simp
  · rw [hex] at h
    dsimp only [] at h
    rcases hsf : numSuffix r3 with ⟨sfx, r4, isF⟩
    rw [hsf] at h
    dsimp only [] at h
    have hsfS := numSuffix_spec _ hsf
    have hsfx : sfx = [] ∨ sfx = ['f'] ∨ sfx = ['F'] ∨
        (sfx ≠ [] ∧ ∀ c ∈ sfx, c = 'l' ∨ c = 'L' ∨ c = 'u' ∨ c = 'U') := by
      rcases hsfS with ⟨hs, _⟩ | ⟨hs, _⟩ | ⟨_, hs1, hs2⟩
      · exact Or.inl hs
      · rcases hs with hs | hs
        · exact Or.inr (Or.inl hs)
        · exact Or.inr (Or.inr (Or.inl hs))
      · exact Or.inr (Or.inr (Or.inr ⟨hs1, hs2⟩))
    have hexS := numExp_spec _ hex
    obtain ⟨e, sgn, es, hecEq, hee, hsgn, hesne, hesd⟩ := hexS
    have hec : ec = [] ∨ ∃ e sgn es, ec = e :: sgn ++ es ∧ (e = 'e' ∨ e = 'E') ∧
        (sgn = [] ∨ sgn = ['+'] ∨ sgn = ['-']) ∧ es ≠ [] ∧ ∀ c ∈ es, c.isDigit = true :=
      Or.inr ⟨e, sgn, es, hecEq, hee, hsgn, hesne, hesd⟩
    obtain ⟨hP1, hP2, hP3⟩ :=
      lexeme_preds (src.takeWhile Char.isDigit) frac ec sfx hds hfrac hec hsfx
    simp only [makeToken, Option.some.injEq] at h
    subst h
    dsimp only []
    have hce : containsExpChar
        (src.takeWhile Char.isDigit ++ frac ++ ec ++ sfx) = true := by
      rw [hP2, hecEq]
      simp
    exact iff_of_true rfl (Or.inr (Or.inl hce))
  · rw [hex] at h
    dsimp only [] at h
    simp at h


/-- Witness for `number_float_iff`: scanning the literal `1.5f` yields the
concrete token `tC9`, which is a `FLOAT_LITERAL` and satisfies the
classification equivalence. -/
theorem number_float_iff_witness :
    (number "test.c" ['1', '.', '5', 'f'] 1 1 []).tok? = some tC9 ∧
    ((tC9.type = TokenType.FLOAT_LITERAL ∨ tC9.type = TokenType.INTEGER_LITERAL) ∧
      (tC9.type = TokenType.FLOAT_LITERAL ↔
        (containsDotDigit tC9.lexeme.data = true ∨ containsExpChar tC9.lexeme.data = true ∨
          endsWithF tC9.lexeme.data = true))) :=
  ⟨rfl, number_float_iff "test.c" ['1', '.', '5', 'f'] 1 1 [] tC9 rfl⟩

end CCC
